import Mathlib

/-!
# Utah image codec: decoder (`utah_dec.c`) and encoder (`utah_enc.c`)

A shallow embedding of `utah_decode_frame` and `utah_encode_frame`.

* Bytes are `Fin 256`; a pointer is a base together with an offset, and the
  memory behind a base pointer is a total function from offsets to bytes, so
  that a read or write past the end of an allocation is still an event of the
  model (it is recorded in the access log) instead of being silently dropped.
* `unsigned int` values are naturals reduced `% 2 ^ 32`; `int` values are
  integers (signed overflow, undefined in C, is not wrapped).
* The services of libavcodec that the two functions call (`ff_get_buffer`,
  `release_buffer`, `ff_alloc_packet2`, `avpriv_set_systematic_pal2`) are
  parameters of the model.
-/

set_option maxRecDepth 4000

namespace Utah

/-! ## Machine-level helpers -/

/-- One byte. -/
abbrev Byte := Fin 256

/-- Truncation of a natural number to its low byte. -/
def byte (n : Nat) : Byte := ⟨n % 256, Nat.mod_lt n (by decide)⟩

/-- Reading of the 32-bit pattern `n` as a C `int`. -/
def toInt32 (n : Nat) : Int :=
  if n % 2 ^ 32 < 2 ^ 31 then ((n % 2 ^ 32 : Nat) : Int) else ((n % 2 ^ 32 : Nat) : Int) - 2 ^ 32

/-- Conversion of a C `int` to `unsigned int`. -/
def toUInt32 (x : Int) : Nat := (x % 2 ^ 32).toNat

/-- C expression `1 << n` of type `int`.  For `n < 31` this is `2 ^ n`; for a
larger count C leaves the result undefined and the model follows the x86 shift
(count taken modulo 32, result read as a signed 32-bit value). -/
def shl_one (n : Nat) : Int := toInt32 (2 ^ (n % 32))

/-- Error code `AVERROR_INVALIDDATA` of libavutil (`-MKTAG('I','N','D','A')`). -/
def AVERROR_INVALIDDATA : Int := -1094995529

/-- Packet flag `AV_PKT_FLAG_KEY`. -/
def AV_PKT_FLAG_KEY : Nat := 1

/-- Picture type `AV_PICTURE_TYPE_I`. -/
def AV_PICTURE_TYPE_I : Int := 1

/-- Pixel formats that the two functions distinguish. -/
inductive AVPixelFormat where
  | NONE
  | RGB8
  | other (n : Nat)
deriving DecidableEq, Repr

/-- One memory access: `len` bytes starting at offset `off` of a buffer. -/
structure Access where
  off : Nat
  len : Nat
deriving DecidableEq, Repr

/-- Every byte touched by an access lies below `bound`. -/
def Access.within (a : Access) (bound : Nat) : Prop := a.len = 0 ∨ a.off + a.len ≤ bound

instance (a : Access) (bound : Nat) : Decidable (a.within bound) := by
  unfold Access.within; infer_instance

/-! ## Data model -/

/-- The fields of `AVFrame` that the codec touches.  `data0` is the memory
behind `data[0]` (the raster), `data1` is the memory behind `data[1]` read as an
array of `uint32_t` (the palette), `data0_set` tells whether `data[0]` is
non-null. -/
structure AVFrame where
  data0 : Int → Byte
  data0_set : Bool
  data1 : Nat → Nat
  linesize0 : Int
  reference : Int
  pict_type : Int
  key_frame : Int

/-- The fields of `AVCodecContext` that the codec touches.  `coded_frame` is a
pointer in C; the field tells whether it points at the picture of the private
context, which is the only value the codec gives it. -/
structure AVCodecContext where
  width : Int
  height : Int
  pix_fmt : AVPixelFormat
  bits_per_coded_sample : Int
  coded_frame : Bool := false

/-- Private data of the codec. -/
structure UtahContext where
  picture : AVFrame

/-- A packet: `data` is the memory behind `avpkt->data`, `size` its declared
size.  Offsets `>= size` are memory that follows the buffer. -/
structure AVPacket where
  data : Nat → Byte
  size : Int
  flags : Nat

/-! ## bytestream.h -/

/-- Little-endian 32-bit read at offset `p` (`bytestream_get_le32`). -/
def bytestream_get_le32 (b : Nat → Byte) (p : Nat) : Nat :=
  (b p).val + 256 * (b (p + 1)).val + 65536 * (b (p + 2)).val + 16777216 * (b (p + 3)).val

/-- Little-endian 16-bit read at offset `p` (`bytestream_get_le16`). -/
def bytestream_get_le16 (b : Nat → Byte) (p : Nat) : Nat :=
  (b p).val + 256 * (b (p + 1)).val

/-- Little-endian 32-bit write of `v` at offset `p` (`bytestream_put_le32`). -/
def bytestream_put_le32 (m : Nat → Byte) (p v : Nat) : Nat → Byte :=
  fun a =>
    if a = p then byte v
    else if a = p + 1 then byte (v / 256)
    else if a = p + 2 then byte (v / 65536)
    else if a = p + 3 then byte (v / 16777216)
    else m a

/-- Little-endian 16-bit write of `v` at offset `p` (`bytestream_put_le16`). -/
def bytestream_put_le16 (m : Nat → Byte) (p v : Nat) : Nat → Byte :=
  fun a =>
    if a = p then byte v
    else if a = p + 1 then byte (v / 256)
    else m a

/-! ## Decoder -/

/-- Services of libavcodec used by the decoder.  `ff_get_buffer` returns its
status and the frame as it leaves the call. -/
structure DecEnv where
  release_buffer : AVCodecContext → AVFrame → AVFrame
  ff_get_buffer : AVCodecContext → AVFrame → Int × AVFrame

/-- Everything `utah_decode_frame` leaves behind: its return value, the
context, the caller's frame `*data`, `*got_frame`, the log of reads from the
input buffer (oldest first), and the final value of the local `file_size`
(`none` when the function returns before assigning it). -/
structure DecodeOut where
  ret : Int
  avctx : AVCodecContext
  uctx : UtahContext
  picture : AVFrame
  got_frame : Int
  reads : List Access
  file_size : Option Nat

/-- C assignment `memcpy(dst + ptr, src + pos, n)` into raster memory. -/
def memcpy_in (dst : Int → Byte) (ptr : Int) (src : Nat → Byte) (pos n : Nat) : Int → Byte :=
  fun a => if ptr ≤ a ∧ a < ptr + n then src (pos + (a - ptr).toNat) else dst a

/-- C call `memset(avf->data[1], 0, 1024)` on the palette seen as `uint32_t[]`:
the first `1024 / 4` entries become zero. -/
def memset_palette (pal : Nat → Nat) : Nat → Nat :=
  fun i => if i < 256 then 0 else pal i

/-- State of the palette loop of the decoder: read position, palette memory,
read log. -/
structure PalState where
  pos : Nat
  pal : Nat → Nat
  reads : List Access

/-- The loop `for (i = 0; i < colors; i++) pal[i] = 0xFFU << 24 | get_le32(&buf)`:
`n` iterations remain and the loop counter is `i`. -/
def dec_palette_loop (buf : Nat → Byte) : Nat → Nat → PalState → PalState
  | 0, _, s => s
  | n + 1, i, s =>
    dec_palette_loop buf n (i + 1)
      { pos := s.pos + 4
        pal := Function.update s.pal i (0xFF000000 ||| bytestream_get_le32 buf s.pos)
        reads := s.reads ++ [⟨s.pos, 4⟩] }

/-- State of the row loop of the decoder: read position `buf`, write pointer
`ptr` (offset from `data[0]`), raster memory, read log. -/
structure RowState where
  pos : Nat
  ptr : Int
  mem : Int → Byte
  reads : List Access

/-- The loop `for (i = 0; i < height; i++) { memcpy(ptr, buf, bytes_per_row);
buf += bytes_per_row; ptr += linesize; }` with `n` iterations remaining. -/
def dec_row_loop (buf : Nat → Byte) (bytes_per_row : Nat) (linesize : Int) :
    Nat → RowState → RowState
  | 0, s => s
  | n + 1, s =>
    dec_row_loop buf bytes_per_row linesize n
      { pos := s.pos + bytes_per_row
        ptr := s.ptr + linesize
        mem := memcpy_in s.mem s.ptr buf s.pos bytes_per_row
        reads := s.reads ++ [⟨s.pos, bytes_per_row⟩] }

/-- The C expression `((width * depth + 31) / 8) & ~3` of the decoder, where
`depth` is `unsigned int`: the whole expression is evaluated in 32-bit unsigned
arithmetic. -/
def dec_bytes_per_row (width : Int) (depth : Nat) : Nat :=
  (((toUInt32 width * depth) % 2 ^ 32 + 31) % 2 ^ 32 / 8) &&& 0xFFFFFFFC

/-- The reads of the six header fields, in program order. -/
def header_reads : List Access :=
  [⟨0, 4⟩, ⟨4, 4⟩, ⟨8, 4⟩, ⟨12, 4⟩, ⟨16, 4⟩, ⟨20, 2⟩]

/-- Lines 84-86 and 91-96 of `utah_decode_frame`: `width` and `height` are read
from offsets 12 and 16 as `int` and stored in the context together with the
pixel format. -/
def dec_set_dimensions (avctx : AVCodecContext) (buf : Nat → Byte) : AVCodecContext :=
  let width := toInt32 (bytestream_get_le32 buf 12)
  let height := toInt32 (bytestream_get_le32 buf 16)
  { avctx with width := width, height := height, pix_fmt := AVPixelFormat.RGB8 }

/-- Lines 98-105 of `utah_decode_frame`: the previous buffer is released when
there is one, `reference` is cleared and a new buffer is requested.  Gives the
status of `ff_get_buffer` and the frame as it leaves the call. -/
def dec_get_buffer (env : DecEnv) (avctx : AVCodecContext) (uctx : UtahContext) :
    Int × AVFrame :=
  let avf := uctx.picture
  let avf := if avf.data0_set then env.release_buffer avctx avf else avf
  let avf := { avf with reference := 0 }
  env.ff_get_buffer avctx avf

/-- Embedding of `utah_decode_frame`.  `picture` and `got_frame` are the values
of `*data` and `*got_frame` on entry. -/
def utah_decode_frame (env : DecEnv) (avctx : AVCodecContext) (uctx : UtahContext)
    (picture : AVFrame) (got_frame : Int) (avpkt : AVPacket) : DecodeOut :=
  let buf := avpkt.data
  let buf_size := avpkt.size
  if buf_size < 8 then
    { ret := AVERROR_INVALIDDATA, avctx := avctx, uctx := uctx, picture := picture,
      got_frame := got_frame, reads := [], file_size := none }
  else
    let file_size := bytestream_get_le32 buf 0
    let file_size := if toUInt32 buf_size < file_size then toUInt32 buf_size else file_size
    let header_size := bytestream_get_le32 buf 4
    let info_header_size := bytestream_get_le32 buf 8
    let depth := bytestream_get_le16 buf 20
    let avctx := dec_set_dimensions avctx buf
    let got := dec_get_buffer env avctx uctx
    let ret := got.1
    let avf := got.2
    if ret < 0 then
      { ret := ret, avctx := avctx, uctx := { picture := avf }, picture := picture,
        got_frame := got_frame, reads := header_reads, file_size := some file_size }
    else
      let avf := { avf with pict_type := AV_PICTURE_TYPE_I, key_frame := 1 }
      let bytes_per_row := dec_bytes_per_row avctx.width depth
      let ptr := (avctx.height - 1) * avf.linesize0
      let linesize := -avf.linesize0
      let colors := shl_one depth
      let pal := memset_palette avf.data1
      let ps := dec_palette_loop buf colors.toNat 0
        { pos := 8 + info_header_size, pal := pal, reads := header_reads }
      let rs := dec_row_loop buf bytes_per_row linesize avctx.height.toNat
        { pos := header_size, ptr := ptr, mem := avf.data0, reads := ps.reads }
      let avf := { avf with data0 := rs.mem, data1 := ps.pal }
      { ret := buf_size, avctx := avctx, uctx := { picture := avf }, picture := avf,
        got_frame := 1, reads := rs.reads, file_size := some file_size }

/-! ## Encoder -/

/-- Services of libavcodec used by the encoder.  `ff_alloc_packet2` receives
the packet and the requested size and returns its status and the packet as it
leaves the call; `avpriv_set_systematic_pal2` gives the memory of `palette256`
after the call. -/
structure EncEnv where
  avpriv_set_systematic_pal2 : AVPixelFormat → Nat → Nat
  ff_alloc_packet2 : AVCodecContext → AVPacket → Int → Int × AVPacket

/-- Everything `utah_encode_frame` leaves behind: return value, private
context, packet, `*got_packet`, the log of writes into the packet buffer
(oldest first) and the values of the locals that size the output. -/
structure EncodeOut where
  ret : Int
  uctx : UtahContext
  pkt : AVPacket
  got_packet : Int
  writes : List Access
  bytes_per_row : Int
  pad : Nat
  image_size : Int
  header_size : Int
  total_bytes : Int

/-- State of the write loops of the encoder: write position, packet memory,
write log. -/
structure OutState where
  pos : Nat
  mem : Nat → Byte
  writes : List Access

/-- The loop `for (i = 0; i < pal_entries; i++) put_le32(&buf, pal[i] & 0xFFFFFF)`:
`n` iterations remain and the loop counter is `i`. -/
def enc_palette_loop (pal : Nat → Nat) : Nat → Nat → OutState → OutState
  | 0, _, s => s
  | n + 1, i, s =>
    enc_palette_loop pal n (i + 1)
      { pos := s.pos + 4
        mem := bytestream_put_le32 s.mem s.pos (pal i &&& 0xFFFFFF)
        writes := s.writes ++ [⟨s.pos, 4⟩] }

/-- C call `memcpy(pkt + pos, src + ptr, n)` out of raster memory. -/
def memcpy_out (dst : Nat → Byte) (pos : Nat) (src : Int → Byte) (ptr : Int) (n : Nat) :
    Nat → Byte :=
  fun a => if pos ≤ a ∧ a < pos + n then src (ptr + ((a - pos : Nat) : Int)) else dst a

/-- C call `memset(pkt + pos, 0, n)`. -/
def memset_zero (dst : Nat → Byte) (pos n : Nat) : Nat → Byte :=
  fun a => if pos ≤ a ∧ a < pos + n then 0 else dst a

/-- State of the row loop of the encoder: write position `buf`, read pointer
`ptr` (offset from `data[0]`), packet memory, write log. -/
structure PackState where
  pos : Nat
  ptr : Int
  mem : Nat → Byte
  writes : List Access

/-- The loop `for (i = 0; i < height; i++) { memcpy(buf, ptr, bytes_per_row);
buf += bytes_per_row; memset(buf, 0, pad); buf += pad; ptr -= linesize; }` with
`n` iterations remaining. -/
def enc_row_loop (src : Int → Byte) (bytes_per_row pad : Nat) (linesize : Int) :
    Nat → PackState → PackState
  | 0, s => s
  | n + 1, s =>
    enc_row_loop src bytes_per_row pad linesize n
      { pos := s.pos + bytes_per_row + pad
        ptr := s.ptr - linesize
        mem := memset_zero (memcpy_out s.mem s.pos src s.ptr bytes_per_row)
                 (s.pos + bytes_per_row) pad
        writes := s.writes ++ [⟨s.pos, bytes_per_row⟩, ⟨s.pos + bytes_per_row, pad⟩] }

/-- One `bytestream_put_le32(&buf, v)` on the write state. -/
def put_le32 (s : OutState) (v : Int) : OutState :=
  { pos := s.pos + 4
    mem := bytestream_put_le32 s.mem s.pos (toUInt32 v)
    writes := s.writes ++ [⟨s.pos, 4⟩] }

/-- One `bytestream_put_le16(&buf, v)` on the write state. -/
def put_le16 (s : OutState) (v : Int) : OutState :=
  { pos := s.pos + 2
    mem := bytestream_put_le16 s.mem s.pos (toUInt32 v)
    writes := s.writes ++ [⟨s.pos, 2⟩] }

/-- Constant `SIZE_UTAHFILEHEADER`. -/
def SIZE_UTAHFILEHEADER : Int := 8

/-- Constant `SIZE_UTAHINFOHEADER`. -/
def SIZE_UTAHINFOHEADER : Int := 18

/-- The seven header writes of `utah_encode_frame`, in program order: file
size, header size, info header size, width, height, bit count, image size. -/
def enc_put_header (s : OutState) (total_bytes header_size width height bit_count
    image_size : Int) : OutState :=
  let s := put_le32 s total_bytes
  let s := put_le32 s header_size
  let s := put_le32 s SIZE_UTAHINFOHEADER
  let s := put_le32 s width
  let s := put_le32 s height
  let s := put_le16 s bit_count
  put_le32 s image_size

/-- The C expression `(4 - bytes_per_row) & 3` on `int`. -/
def enc_pad (bytes_per_row : Int) : Nat := toUInt32 (4 - bytes_per_row) &&& 3

/-- Everything `utah_encode_init` leaves behind: its return value, the codec
context and the private context. -/
structure InitOut where
  ret : Int
  avctx : AVCodecContext
  uctx : UtahContext

/-- Embedding of `utah_encode_init`.  `avcodec_get_frame_defaults` of libavcodec,
which fills the frame it is given with default values, is a parameter.  The
picture is reset and `coded_frame` is pointed at it before the pixel format is
looked at, so both happen on the failing path too. -/
def utah_encode_init (avcodec_get_frame_defaults : AVFrame → AVFrame)
    (avctx : AVCodecContext) (uctx : UtahContext) : InitOut :=
  let uctx := { uctx with picture := avcodec_get_frame_defaults uctx.picture }
  let avctx := { avctx with coded_frame := true }
  if avctx.pix_fmt = AVPixelFormat.NONE then
    { ret := -1, avctx := avctx, uctx := uctx }
  else
    let avctx := { avctx with bits_per_coded_sample := 8 }
    { ret := 0, avctx := avctx, uctx := uctx }

/-- Embedding of `utah_encode_frame`.  `pkt` and `got_packet` are the values of
`*pkt` and `*got_packet` on entry; the private context is overwritten by
`*avf = *pict` before it is read, so its value on entry is not an input.  `pal`
points at `palette256` and `pal_entries` starts at 0, so the guard
`if (pal && !pal_entries)` always holds and `pal_entries = 1 << bit_count`.
The `int` locals `image_size` and `total_bytes` carry the mathematical value of
their expressions, which is the value the program computes whenever it fits an
`int` (signed overflow is undefined in C); each `bytestream_put_le32` stores the
low 32 bits of its argument. -/
def utah_encode_frame (env : EncEnv) (avctx : AVCodecContext) (pkt : AVPacket)
    (pict : AVFrame) (got_packet : Int) : EncodeOut :=
  let bit_count := avctx.bits_per_coded_sample
  let avf := pict
  let avf := { avf with pict_type := AV_PICTURE_TYPE_I, key_frame := 1 }
  let pal := env.avpriv_set_systematic_pal2 avctx.pix_fmt
  let pal_entries := shl_one bit_count.toNat
  let bytes_per_row := avctx.width
  let pad := enc_pad bytes_per_row
  let image_size := avctx.height * (bytes_per_row + pad)
  let header_size := SIZE_UTAHFILEHEADER + SIZE_UTAHINFOHEADER + pal_entries * 4
  let total_bytes := image_size + header_size
  let got := env.ff_alloc_packet2 avctx pkt total_bytes
  let ret := got.1
  let pkt := got.2
  if ret < 0 then
    { ret := ret, uctx := { picture := avf }, pkt := pkt, got_packet := got_packet,
      writes := [], bytes_per_row := bytes_per_row, pad := pad, image_size := image_size,
      header_size := header_size, total_bytes := total_bytes }
  else
    let hs := enc_put_header { pos := 0, mem := pkt.data, writes := [] }
      total_bytes header_size avctx.width avctx.height bit_count image_size
    let ps := enc_palette_loop pal pal_entries.toNat 0 hs
    let ptr := (avctx.height - 1) * avf.linesize0
    let rs := enc_row_loop avf.data0 bytes_per_row.toNat pad avf.linesize0 avctx.height.toNat
      { pos := header_size.toNat, ptr := ptr, mem := ps.mem, writes := ps.writes }
    { ret := 0, uctx := { picture := avf },
      pkt := { pkt with data := rs.mem, flags := pkt.flags ||| AV_PKT_FLAG_KEY },
      got_packet := 1, writes := rs.writes, bytes_per_row := bytes_per_row, pad := pad,
      image_size := image_size, header_size := header_size, total_bytes := total_bytes }

/-! ## Round trip -/

/-- Encoder context for encoding a decoded frame again: same pixel format (and
so the same systematic palette) and bit count, with the dimensions the decoder
stored in its context. -/
def reencode_ctx (ectx : AVCodecContext) (d : DecodeOut) : AVCodecContext :=
  { ectx with width := d.avctx.width, height := d.avctx.height }

/-! ## Row stride of the format description -/

/-- Row stride as the format description words it, `((width * bitsPerPixel + 31) / 8) & ~3`,
read on unbounded naturals: `& ~3` clears the two low bits.  The decoder's C
expression is `dec_bytes_per_row`; the two agree while nothing wraps. -/
def computeRowStride (width bitsPerPixel : Nat) : Nat :=
  (width * bitsPerPixel + 31) / 8 / 4 * 4

/-! ## Example inputs -/

/-- A frame with no buffer attached. -/
def ex_blank_frame : AVFrame :=
  { data0 := fun _ => 0
    data0_set := false
    data1 := fun _ => 0
    linesize0 := 0
    reference := 0
    pict_type := 0
    key_frame := 0 }

/-- The 2x2 raster `[1,0 / 0,1]`, rows 32 bytes apart. -/
def ex_pict22 : AVFrame :=
  { ex_blank_frame with
    data0 := fun a => if a = 0 then 1 else if a = 33 then 1 else 0
    data0_set := true
    linesize0 := 32 }

/-- Encoder services for the examples: palette `{0: black, 1: white}`, and an
allocator that hands out a buffer of the requested size filled with `0xAA`. -/
def ex_enc_env : EncEnv :=
  { avpriv_set_systematic_pal2 := fun _ i => if i = 1 then 0xFFFFFF else 0
    ff_alloc_packet2 := fun _ p n => (0, { p with data := fun _ => 0xAA, size := n }) }

/-- Encoder context of a 2x2 image after `utah_encode_init`. -/
def ex_ctx22 : AVCodecContext :=
  { width := 2, height := 2, pix_fmt := AVPixelFormat.RGB8, bits_per_coded_sample := 8 }

/-- An empty packet. -/
def ex_pkt : AVPacket :=
  { data := fun _ => 0, size := 0, flags := 0 }

/-- Decoder services for the examples: releasing detaches the buffer, and the
allocator hands out a raster filled with `0xCD` whose rows are 32 bytes apart. -/
def ex_dec_env : DecEnv :=
  { release_buffer := fun _ f => { f with data0_set := false }
    ff_get_buffer := fun _ f =>
      (0, { f with data0 := fun _ => 0xCD, data0_set := true, linesize0 := 32 }) }

/-- Decoder context before the first frame. -/
def ex_dec_ctx : AVCodecContext :=
  { width := 0, height := 0, pix_fmt := AVPixelFormat.NONE, bits_per_coded_sample := 0 }

/-- Memory holding the listed bytes, followed by zero bytes. -/
def ex_mem (l : List Byte) : Nat → Byte := fun k => l.getD k 0

/-- A buffer of 7 bytes. -/
def ex_pkt7 : AVPacket :=
  { data := ex_mem [58, 4, 0, 0, 26, 4, 0], size := 7, flags := 0 }

/-- A buffer of 500 bytes whose size field says 10000: a 16-colour image of 8 x 100
pixels, header 26 bytes, palette 64 bytes, rows of 4 bytes from offset 90. -/
def ex_pkt500 : AVPacket :=
  { data := ex_mem [16, 39, 0, 0, 90, 0, 0, 0, 18, 0, 0, 0, 8, 0, 0, 0, 100, 0, 0, 0, 4, 0,
      144, 1, 0, 0]
    size := 500
    flags := 0 }

/-- The encoding of the 2x2 example: a well-formed file of 1058 bytes. -/
def ex_file22 : AVPacket :=
  (utah_encode_frame ex_enc_env ex_ctx22 ex_pkt ex_pict22 0).pkt

/-- The encoding of the 2x2 example (1058 bytes) cut down to its first 1054
bytes: the last stored row is incomplete. -/
def ex_pkt_truncated : AVPacket :=
  { ex_file22 with size := 1054 }

/-- The encoding of the 2x2 example handed over as a buffer of 8 bytes: only
the file-size and header-size fields belong to the buffer. -/
def ex_pkt8 : AVPacket :=
  { ex_file22 with size := 8 }

/-- The accesses of a log, in order, tile the byte range from the first
argument up to the last: each access begins where the one before it ended. -/
def tiles : Nat → List Access → Nat → Prop
  | p, [], q => p = q
  | p, a :: l, q => a.off = p ∧ tiles (p + a.len) l q

/-- Decision procedure for `tiles`. -/
def tiles_dec : (p : Nat) → (l : List Access) → (q : Nat) → Decidable (tiles p l q)
  | p, [], q => decEq p q
  | p, a :: l, q =>
    match decEq a.off p, tiles_dec (p + a.len) l q with
    | isTrue h1, isTrue h2 => isTrue ⟨h1, h2⟩
    | isFalse h1, _ => isFalse (fun h => h1 h.1)
    | _, isFalse h2 => isFalse (fun h => h2 h.2)

instance (p : Nat) (l : List Access) (q : Nat) : Decidable (tiles p l q) := tiles_dec p l q

/-! ## Codec registration -/

/-- The `.pix_fmts` list of `ff_utah_encoder`, without its `AV_PIX_FMT_NONE`
terminator: the formats the encoder declares to its caller. -/
def ff_utah_encoder_pix_fmts : List AVPixelFormat := [AVPixelFormat.RGB8]

/-! ## Further example inputs -/

/-- Encoder context of a 2x2 image whose pixel format is a format other than
`RGB8` and `NONE` (number 2 stands for `AV_PIX_FMT_RGB24`), before
`utah_encode_init`. -/
def ex_ctx_rgb24 : AVCodecContext :=
  { width := 2, height := 2, pix_fmt := AVPixelFormat.other 2, bits_per_coded_sample := 0 }

/-- Bytes 4 to 33 of a crafted 2-colour image of 32 x 1 pixels whose
`pixelDataOffset` field is 0: header fields from offset 4 on, then a palette of
two entries at offset 26. -/
def ex_tail : List Byte :=
  [0, 0, 0, 0, 18, 0, 0, 0, 32, 0, 0, 0, 1, 0, 0, 0, 1, 0, 4, 0, 0, 0,
   0, 0, 0, 0, 255, 255, 255, 0]

/-- A buffer of 34 bytes whose size field says 34. -/
def ex_pkt_size_a : AVPacket :=
  { data := ex_mem ([34, 0, 0, 0] ++ ex_tail), size := 34, flags := 0 }

/-- The same buffer with the size field changed to 33: bytes 0 to 3 differ, all
other bytes are the same. -/
def ex_pkt_size_b : AVPacket :=
  { data := ex_mem ([33, 0, 0, 0] ++ ex_tail), size := 34, flags := 0 }

/-- The buffer `ex_pkt500` with its size field changed from 10000 to 500. -/
def ex_pkt500_b : AVPacket :=
  { data := ex_mem [244, 1, 0, 0, 90, 0, 0, 0, 18, 0, 0, 0, 8, 0, 0, 0, 100, 0, 0, 0, 4, 0,
      144, 1, 0, 0]
    size := 500
    flags := 0 }

/-- Encoder context of a 65536 x 65536 image: `height * rowStride` is `2 ^ 32`. -/
def ex_ctx_huge : AVCodecContext :=
  { width := 65536, height := 65536, pix_fmt := AVPixelFormat.RGB8, bits_per_coded_sample := 8 }

/-! ## Arithmetic of the row size -/

theorem testBit_false_of_lt (x i n : Nat) (h : x < 2 ^ n) (hi : n ≤ i) : x.testBit i = false :=
  Nat.testBit_lt_two_pow (Nat.lt_of_lt_of_le h (Nat.pow_le_pow_right (by decide) hi))

theorem and_mask_fffffffc (x : Nat) (h : x < 2 ^ 32) : x &&& 0xFFFFFFFC = 4 * (x / 4) := by
  apply Nat.eq_of_testBit_eq
  intro i
  have e1 : (0xFFFFFFFC : Nat) = 2 ^ 2 * (2 ^ 30 - 1) := by norm_num
  have e2 : 4 * (x / 4) = 2 ^ 2 * (x >>> 2) := by
    rw [Nat.shiftRight_eq_div_pow]; norm_num
  rw [e2, Nat.testBit_and, e1, Nat.testBit_mul_pow_two, Nat.testBit_mul_pow_two,
    Nat.testBit_two_pow_sub_one, Nat.testBit_shiftRight]
  by_cases h2 : 2 ≤ i
  · have : 2 + (i - 2) = i := by omega
    rw [this]
    by_cases h32 : i < 32
    · have : i - 2 < 30 := by omega
      simp [h2, this]
    · have hx := testBit_false_of_lt x i 32 h (by omega)
      simp [hx]
  · simp [h2]

theorem toUInt32_of_nonneg (x : Int) (h0 : 0 ≤ x) (h1 : x < 2 ^ 32) : toUInt32 x = x.toNat := by
  unfold toUInt32
  rw [Int.emod_eq_of_lt h0 h1]

theorem dec_bytes_per_row_eight (w : Int) (h0 : 0 ≤ w) (h1 : w * 8 + 31 < 2 ^ 32) :
    dec_bytes_per_row w 8 = 4 * ((w.toNat + 3) / 4) := by
  unfold dec_bytes_per_row
  rw [toUInt32_of_nonneg w h0 (by omega)]
  have hw : w.toNat * 8 + 31 < 2 ^ 32 := by omega
  have e1 : w.toNat * 8 % 2 ^ 32 = w.toNat * 8 := Nat.mod_eq_of_lt (by omega)
  rw [e1, Nat.mod_eq_of_lt hw, and_mask_fffffffc _ (by omega)]
  omega

/-! ## The loops of the decoder -/

theorem dec_palette_loop_reads (buf : Nat → Byte) (n i : Nat) (s : PalState) :
    (dec_palette_loop buf n i s).reads
      = s.reads ++ (List.range n).map (fun k => (⟨s.pos + 4 * k, 4⟩ : Access)) := by
  induction n generalizing i s with
  | zero => simp [dec_palette_loop]
  | succ n ih =>
    rw [dec_palette_loop, ih, List.range_succ_eq_map]
    simp only [List.map_cons, List.map_map, List.append_assoc, List.singleton_append,
      Nat.mul_zero, Nat.add_zero]
    congr 2
    apply List.map_congr_left
    intro k _
    simp only [Function.comp, Access.mk.injEq, and_true]
    omega

theorem dec_palette_loop_pal (buf : Nat → Byte) (n i : Nat) (s : PalState) (j : Nat) :
    (dec_palette_loop buf n i s).pal j
      = if i ≤ j ∧ j < i + n then 0xFF000000 ||| bytestream_get_le32 buf (s.pos + 4 * (j - i))
        else s.pal j := by
  induction n generalizing i s with
  | zero => rw [dec_palette_loop, if_neg (by omega)]
  | succ n ih =>
    rw [dec_palette_loop, ih]
    by_cases h1 : i + 1 ≤ j ∧ j < i + 1 + n
    · have h2 : i ≤ j ∧ j < i + (n + 1) := by omega
      have h3 : s.pos + 4 + 4 * (j - (i + 1)) = s.pos + 4 * (j - i) := by omega
      simp only [h1, h2, and_self, if_true, h3]
    · by_cases h4 : j = i
      · subst h4
        simp
      · have h2 : ¬ (i ≤ j ∧ j < i + (n + 1)) := by omega
        simp only [h1, h2, if_false, Function.update_noteq h4]

theorem dec_row_loop_reads (buf : Nat → Byte) (bpr : Nat) (ls : Int) (n : Nat) (s : RowState) :
    (dec_row_loop buf bpr ls n s).reads
      = s.reads ++ (List.range n).map (fun k => (⟨s.pos + k * bpr, bpr⟩ : Access)) := by
  induction n generalizing s with
  | zero => simp [dec_row_loop]
  | succ n ih =>
    rw [dec_row_loop, ih, List.range_succ_eq_map]
    simp only [List.map_cons, List.map_map, List.append_assoc, List.singleton_append,
      Nat.zero_mul, Nat.add_zero]
    congr 2
    apply List.map_congr_left
    intro k _
    simp only [Function.comp, Access.mk.injEq, and_true]
    rw [Nat.succ_mul]; omega

/-- Rows are written downwards: nothing at or above `ptr + bytes_per_row` changes. -/
theorem dec_row_loop_frame (buf : Nat → Byte) (bpr : Nat) (L : Int) (hL : 0 ≤ L) (n : Nat)
    (s : RowState) (a : Int) (ha : s.ptr + bpr ≤ a) :
    (dec_row_loop buf bpr (-L) n s).mem a = s.mem a := by
  induction n generalizing s with
  | zero => simp [dec_row_loop]
  | succ n ih =>
    rw [dec_row_loop, ih]
    · simp only [memcpy_in]
      rw [if_neg]; omega
    · simp only; omega

theorem dec_row_loop_mem (buf : Nat → Byte) (bpr : Nat) (L : Int) (hL : (bpr : Int) ≤ L)
    (n : Nat) (s : RowState) (k j : Nat) (hk : k < n) (hj : j < bpr) :
    (dec_row_loop buf bpr (-L) n s).mem (s.ptr - k * L + j) = buf (s.pos + k * bpr + j) := by
  induction n generalizing s k with
  | zero => omega
  | succ n ih =>
    rw [dec_row_loop]
    cases k with
    | zero =>
      rw [dec_row_loop_frame buf bpr L (by omega) n _ _ (by simp only; push_cast; omega)]
      simp only [memcpy_in]
      rw [if_pos (by push_cast; omega)]
      congr 1
      push_cast
      omega
    | succ k =>
      have := ih { pos := s.pos + bpr, ptr := s.ptr + -L,
                   mem := memcpy_in s.mem s.ptr buf s.pos bpr,
                   reads := s.reads ++ [⟨s.pos, bpr⟩] } k (by omega)
      simp only at this
      have e1 : s.ptr - ((k + 1 : Nat) : Int) * L + j = s.ptr + -L - (k : Int) * L + j := by
        push_cast; ring
      have e2 : s.pos + (k + 1) * bpr + j = s.pos + bpr + k * bpr + j := by
        rw [Nat.succ_mul]; omega
      rw [e1, e2]
      exact this

/-! ## The loops of the encoder -/

theorem put_le32_frame (m : Nat → Byte) (p v a : Nat) (h : a < p ∨ p + 4 ≤ a) :
    bytestream_put_le32 m p v a = m a := by
  unfold bytestream_put_le32
  rw [if_neg (by omega), if_neg (by omega), if_neg (by omega), if_neg (by omega)]

theorem put_le16_frame (m : Nat → Byte) (p v a : Nat) (h : a < p ∨ p + 2 ≤ a) :
    bytestream_put_le16 m p v a = m a := by
  unfold bytestream_put_le16
  rw [if_neg (by omega), if_neg (by omega)]

theorem put_le32_at (m : Nat → Byte) (p v c : Nat) (hc : c < 4) :
    bytestream_put_le32 m p v (p + c) = byte (v / 256 ^ c) := by
  unfold bytestream_put_le32
  have : c = 0 ∨ c = 1 ∨ c = 2 ∨ c = 3 := by omega
  rcases this with rfl | rfl | rfl | rfl <;> simp

theorem put_le16_at (m : Nat → Byte) (p v c : Nat) (hc : c < 2) :
    bytestream_put_le16 m p v (p + c) = byte (v / 256 ^ c) := by
  unfold bytestream_put_le16
  have : c = 0 ∨ c = 1 := by omega
  rcases this with rfl | rfl <;> simp

theorem enc_palette_loop_pos (pal : Nat → Nat) (n i : Nat) (s : OutState) :
    (enc_palette_loop pal n i s).pos = s.pos + 4 * n := by
  induction n generalizing i s with
  | zero => simp [enc_palette_loop]
  | succ n ih => rw [enc_palette_loop, ih]; simp only; omega

theorem enc_palette_loop_frame (pal : Nat → Nat) (n i : Nat) (s : OutState) (a : Nat)
    (h : a < s.pos ∨ s.pos + 4 * n ≤ a) :
    (enc_palette_loop pal n i s).mem a = s.mem a := by
  induction n generalizing i s with
  | zero => simp [enc_palette_loop]
  | succ n ih =>
    rw [enc_palette_loop, ih _ _ (by simp only; omega)]
    exact put_le32_frame _ _ _ _ (by omega)

theorem enc_palette_loop_mem (pal : Nat → Nat) (n i : Nat) (s : OutState) (k c : Nat)
    (hk : k < n) (hc : c < 4) :
    (enc_palette_loop pal n i s).mem (s.pos + 4 * k + c)
      = byte ((pal (i + k) &&& 0xFFFFFF) / 256 ^ c) := by
  induction n generalizing i s k with
  | zero => omega
  | succ n ih =>
    rw [enc_palette_loop]
    cases k with
    | zero =>
      rw [enc_palette_loop_frame _ _ _ _ _ (by simp only; omega)]
      exact put_le32_at _ _ _ _ hc
    | succ k =>
      have := ih (i + 1) { pos := s.pos + 4,
                           mem := bytestream_put_le32 s.mem s.pos (pal i &&& 0xFFFFFF),
                           writes := s.writes ++ [⟨s.pos, 4⟩] } k (by omega)
      simp only at this
      have e1 : s.pos + 4 * (k + 1) + c = s.pos + 4 + 4 * k + c := by omega
      have e2 : i + (k + 1) = i + 1 + k := by omega
      rw [e1, e2]
      exact this

theorem enc_palette_loop_writes (pal : Nat → Nat) (n i : Nat) (s : OutState) :
    (enc_palette_loop pal n i s).writes
      = s.writes ++ (List.range n).map (fun k => (⟨s.pos + 4 * k, 4⟩ : Access)) := by
  induction n generalizing i s with
  | zero => simp [enc_palette_loop]
  | succ n ih =>
    rw [enc_palette_loop, ih, List.range_succ_eq_map]
    simp only [List.map_cons, List.map_map, List.append_assoc, List.singleton_append,
      Nat.mul_zero, Nat.add_zero]
    congr 2
    apply List.map_congr_left
    intro k _
    simp only [Function.comp, Access.mk.injEq, and_true]
    omega

theorem enc_row_loop_frame (src : Int → Byte) (bpr pad : Nat) (ls : Int) (n : Nat)
    (s : PackState) (a : Nat) (h : a < s.pos ∨ s.pos + n * (bpr + pad) ≤ a) :
    (enc_row_loop src bpr pad ls n s).mem a = s.mem a := by
  induction n generalizing s with
  | zero => simp [enc_row_loop]
  | succ n ih =>
    rw [Nat.succ_mul] at h
    rw [enc_row_loop, ih _ (by simp only; omega)]
    simp only [memset_zero, memcpy_out]
    rw [if_neg (by omega), if_neg (by omega)]

theorem enc_row_loop_pixel (src : Int → Byte) (bpr pad : Nat) (ls : Int) (n : Nat)
    (s : PackState) (k j : Nat) (hk : k < n) (hj : j < bpr) :
    (enc_row_loop src bpr pad ls n s).mem (s.pos + k * (bpr + pad) + j)
      = src (s.ptr - k * ls + j) := by
  induction n generalizing s k with
  | zero => omega
  | succ n ih =>
    rw [enc_row_loop]
    cases k with
    | zero =>
      rw [enc_row_loop_frame _ _ _ _ _ _ _ (by simp only; omega)]
      simp only [memset_zero, memcpy_out]
      rw [if_neg (by omega), if_pos (by omega)]
      congr 1
      push_cast
      omega
    | succ k =>
      have := ih { pos := s.pos + bpr + pad, ptr := s.ptr - ls,
                   mem := memset_zero (memcpy_out s.mem s.pos src s.ptr bpr) (s.pos + bpr) pad,
                   writes := s.writes ++ [⟨s.pos, bpr⟩, ⟨s.pos + bpr, pad⟩] } k (by omega)
      simp only at this
      have e1 : s.pos + (k + 1) * (bpr + pad) + j = s.pos + bpr + pad + k * (bpr + pad) + j := by
        rw [Nat.succ_mul]; omega
      have e2 : s.ptr - ((k + 1 : Nat) : Int) * ls + j = s.ptr - ls - (k : Int) * ls + j := by
        push_cast; ring
      rw [e1, e2]
      exact this

theorem enc_row_loop_padding (src : Int → Byte) (bpr pad : Nat) (ls : Int) (n : Nat)
    (s : PackState) (k j : Nat) (hk : k < n) (hj : j < pad) :
    (enc_row_loop src bpr pad ls n s).mem (s.pos + k * (bpr + pad) + bpr + j) = 0 := by
  induction n generalizing s k with
  | zero => omega
  | succ n ih =>
    rw [enc_row_loop]
    cases k with
    | zero =>
      rw [enc_row_loop_frame _ _ _ _ _ _ _ (by simp only; omega)]
      simp only [memset_zero]
      rw [if_pos (by omega)]
    | succ k =>
      have := ih { pos := s.pos + bpr + pad, ptr := s.ptr - ls,
                   mem := memset_zero (memcpy_out s.mem s.pos src s.ptr bpr) (s.pos + bpr) pad,
                   writes := s.writes ++ [⟨s.pos, bpr⟩, ⟨s.pos + bpr, pad⟩] } k (by omega)
      simp only at this
      have e1 : s.pos + (k + 1) * (bpr + pad) + bpr + j
          = s.pos + bpr + pad + k * (bpr + pad) + bpr + j := by
        rw [Nat.succ_mul]; omega
      rw [e1]
      exact this

/-! ## What `utah_encode_frame` leaves in the packet -/

theorem shl_one_eight : shl_one (8 : Int).toNat = 256 := by decide

theorem encode_header_size (env : EncEnv) (avctx : AVCodecContext) (pkt : AVPacket)
    (pict : AVFrame) (gp : Int) (hb : avctx.bits_per_coded_sample = 8) :
    (utah_encode_frame env avctx pkt pict gp).header_size = 1050 := by
  unfold utah_encode_frame
  simp only [hb, shl_one_eight, SIZE_UTAHFILEHEADER, SIZE_UTAHINFOHEADER]
  split <;> rfl

theorem encode_locals (env : EncEnv) (avctx : AVCodecContext) (pkt : AVPacket)
    (pict : AVFrame) (gp : Int) :
    (utah_encode_frame env avctx pkt pict gp).bytes_per_row = avctx.width
    ∧ (utah_encode_frame env avctx pkt pict gp).pad = enc_pad avctx.width
    ∧ (utah_encode_frame env avctx pkt pict gp).image_size
        = avctx.height * (avctx.width + enc_pad avctx.width)
    ∧ (utah_encode_frame env avctx pkt pict gp).total_bytes
        = (utah_encode_frame env avctx pkt pict gp).image_size
          + (utah_encode_frame env avctx pkt pict gp).header_size := by
  unfold utah_encode_frame
  simp only
  split <;> simp

theorem enc_put_header_pos (s : OutState) (t hs w h bc im : Int) :
    (enc_put_header s t hs w h bc im).pos = s.pos + 26 := by
  simp only [enc_put_header, put_le32, put_le16]

theorem enc_put_header_writes (m : Nat → Byte) (t hs w h bc im : Int) :
    (enc_put_header { pos := 0, mem := m, writes := [] } t hs w h bc im).writes
      = [⟨0, 4⟩, ⟨4, 4⟩, ⟨8, 4⟩, ⟨12, 4⟩, ⟨16, 4⟩, ⟨20, 2⟩, ⟨22, 4⟩] := by
  simp [enc_put_header, put_le32, put_le16]

/-- Memory after the seven header writes, field by field. -/
theorem enc_put_header_mem (m : Nat → Byte) (t hs w h bc im : Int) (c : Nat) :
    let s := enc_put_header { pos := 0, mem := m, writes := [] } t hs w h bc im
    (c < 4 → s.mem (0 + c) = byte (toUInt32 t / 256 ^ c))
    ∧ (c < 4 → s.mem (4 + c) = byte (toUInt32 hs / 256 ^ c))
    ∧ (c < 4 → s.mem (8 + c) = byte (toUInt32 SIZE_UTAHINFOHEADER / 256 ^ c))
    ∧ (c < 4 → s.mem (12 + c) = byte (toUInt32 w / 256 ^ c))
    ∧ (c < 4 → s.mem (16 + c) = byte (toUInt32 h / 256 ^ c))
    ∧ (c < 2 → s.mem (20 + c) = byte (toUInt32 bc / 256 ^ c))
    ∧ (c < 4 → s.mem (22 + c) = byte (toUInt32 im / 256 ^ c)) := by
  simp only [enc_put_header, put_le32, put_le16, Nat.zero_add]
  refine ⟨?_, ?_, ?_, ?_, ?_, ?_, ?_⟩ <;> intro hc
  · rw [put_le32_frame _ _ _ _ (by omega), put_le16_frame _ _ _ _ (by omega),
      put_le32_frame _ _ _ _ (by omega), put_le32_frame _ _ _ _ (by omega),
      put_le32_frame _ _ _ _ (by omega), put_le32_frame _ _ _ _ (by omega)]
    have := put_le32_at m 0 (toUInt32 t) c hc
    simpa using this
  · rw [put_le32_frame _ _ _ _ (by omega), put_le16_frame _ _ _ _ (by omega),
      put_le32_frame _ _ _ _ (by omega), put_le32_frame _ _ _ _ (by omega),
      put_le32_frame _ _ _ _ (by omega)]
    exact put_le32_at _ _ _ c hc
  · rw [put_le32_frame _ _ _ _ (by omega), put_le16_frame _ _ _ _ (by omega),
      put_le32_frame _ _ _ _ (by omega), put_le32_frame _ _ _ _ (by omega)]
    exact put_le32_at _ _ _ c hc
  · rw [put_le32_frame _ _ _ _ (by omega), put_le16_frame _ _ _ _ (by omega),
      put_le32_frame _ _ _ _ (by omega)]
    exact put_le32_at _ _ _ c hc
  · rw [put_le32_frame _ _ _ _ (by omega), put_le16_frame _ _ _ _ (by omega)]
    exact put_le32_at _ _ _ c hc
  · rw [put_le32_frame _ _ _ _ (by omega)]
    exact put_le16_at _ _ _ c hc
  · exact put_le32_at _ _ _ c hc

/-- On success the packet memory is the result of the three write phases. -/
theorem encode_ok_data (env : EncEnv) (avctx : AVCodecContext) (pkt : AVPacket)
    (pict : AVFrame) (gp : Int) (hb : avctx.bits_per_coded_sample = 8)
    (hok : (utah_encode_frame env avctx pkt pict gp).ret = 0) :
    ∃ m0 : Nat → Byte, ∃ s : PackState,
      s.pos = 1050 ∧ s.ptr = (avctx.height - 1) * pict.linesize0
      ∧ s.mem = (enc_palette_loop (env.avpriv_set_systematic_pal2 avctx.pix_fmt) 256 0
          (enc_put_header { pos := 0, mem := m0, writes := [] }
            (avctx.height * (avctx.width + enc_pad avctx.width) + 1050) 1050
            avctx.width avctx.height 8
            (avctx.height * (avctx.width + enc_pad avctx.width)))).mem
      ∧ (utah_encode_frame env avctx pkt pict gp).pkt.data
        = (enc_row_loop pict.data0 avctx.width.toNat (enc_pad avctx.width) pict.linesize0
            avctx.height.toNat s).mem := by
  have e1 : (8 + 18 + 256 * 4 : Int) = 1050 := by norm_num
  have e2 : Int.toNat 256 = 256 := rfl
  have e3 : Int.toNat 1050 = 1050 := rfl
  unfold utah_encode_frame at hok ⊢
  simp only [hb, shl_one_eight, SIZE_UTAHFILEHEADER, SIZE_UTAHINFOHEADER, e1, e2, e3] at hok ⊢
  split at hok
  · rename_i hneg; simp only at hok; omega
  · rename_i hneg
    rw [if_neg hneg]
    exact ⟨_, _, rfl, rfl, rfl, rfl⟩

theorem toUInt32_lt (x : Int) : toUInt32 x < 2 ^ 32 := by
  unfold toUInt32; omega

theorem get_le32_of_bytes (m : Nat → Byte) (p v : Nat) (hv : v < 2 ^ 32)
    (h : ∀ c, c < 4 → m (p + c) = byte (v / 256 ^ c)) : bytestream_get_le32 m p = v := by
  have h0 := h 0 (by omega)
  have h1 := h 1 (by omega)
  have h2 := h 2 (by omega)
  have h3 := h 3 (by omega)
  simp only [Nat.add_zero, pow_zero, Nat.div_one, pow_one] at h0 h1
  unfold bytestream_get_le32
  rw [h0, h1, h2, h3]
  simp only [byte]
  norm_num
  omega

theorem get_le16_of_bytes (m : Nat → Byte) (p v : Nat) (hv : v < 2 ^ 16)
    (h : ∀ c, c < 2 → m (p + c) = byte (v / 256 ^ c)) : bytestream_get_le16 m p = v := by
  have h0 := h 0 (by omega)
  have h1 := h 1 (by omega)
  simp only [Nat.add_zero, pow_zero, Nat.div_one, pow_one] at h0 h1
  unfold bytestream_get_le16
  rw [h0, h1]
  simp only [byte]
  omega

theorem computeRowStride_eight (w : Nat) : computeRowStride w 8 = w + (4 - w % 4) % 4 := by
  unfold computeRowStride; omega

theorem enc_pad_eq_stride (w : Int) (h0 : 0 ≤ w) :
    (w.toNat + enc_pad w = computeRowStride w.toNat 8)
    ∧ (w + (enc_pad w : Int) = (computeRowStride w.toNat 8 : Int)) := by
  have h3 : ∀ x : Nat, x &&& 3 = x % 4 := fun x => Nat.and_pow_two_sub_one_eq_mod x 2
  have e : enc_pad w = (4 - w.toNat % 4) % 4 := by
    unfold enc_pad
    rw [h3]
    unfold toUInt32
    omega
  rw [computeRowStride_eight, e]
  omega

theorem computeRowStride_eq_dec (w : Int) (h0 : 0 ≤ w) (h1 : w * 8 + 31 < 2 ^ 32) :
    dec_bytes_per_row w 8 = computeRowStride w.toNat 8 := by
  rw [dec_bytes_per_row_eight w h0 h1, computeRowStride_eight]
  omega

/-- Bytes of the fixed header and of the first palette slot after a successful encode. -/
theorem encode_header_bytes (env : EncEnv) (avctx : AVCodecContext) (pkt : AVPacket)
    (pict : AVFrame) (gp : Int) (hb : avctx.bits_per_coded_sample = 8)
    (hok : (utah_encode_frame env avctx pkt pict gp).ret = 0) (c : Nat) :
    let d := (utah_encode_frame env avctx pkt pict gp).pkt.data
    (c < 4 → d (0 + c) = byte (toUInt32 (avctx.height * (avctx.width + enc_pad avctx.width) + 1050)
        / 256 ^ c))
    ∧ (c < 4 → d (4 + c) = byte (toUInt32 1050 / 256 ^ c))
    ∧ (c < 4 → d (8 + c) = byte (toUInt32 SIZE_UTAHINFOHEADER / 256 ^ c))
    ∧ (c < 4 → d (12 + c) = byte (toUInt32 avctx.width / 256 ^ c))
    ∧ (c < 4 → d (16 + c) = byte (toUInt32 avctx.height / 256 ^ c))
    ∧ (c < 2 → d (20 + c) = byte (toUInt32 8 / 256 ^ c))
    ∧ (c < 4 → d (22 + c)
        = byte (toUInt32 (avctx.height * (avctx.width + enc_pad avctx.width)) / 256 ^ c)) := by
  obtain ⟨m0, s, hpos, _, hmem, hdata⟩ := encode_ok_data env avctx pkt pict gp hb hok
  have hfr : ∀ a, a < 26 → (utah_encode_frame env avctx pkt pict gp).pkt.data a
      = (enc_put_header { pos := 0, mem := m0, writes := [] }
            (avctx.height * (avctx.width + enc_pad avctx.width) + 1050) 1050
            avctx.width avctx.height 8
            (avctx.height * (avctx.width + enc_pad avctx.width))).mem a := by
    intro a ha
    rw [hdata, enc_row_loop_frame _ _ _ _ _ _ _ (by omega), hmem,
      enc_palette_loop_frame _ _ _ _ _ (by rw [enc_put_header_pos]; simp only; omega)]
  have hm := enc_put_header_mem m0
    (avctx.height * (avctx.width + enc_pad avctx.width) + 1050) 1050
    avctx.width avctx.height 8 (avctx.height * (avctx.width + enc_pad avctx.width)) c
  simp only at hm ⊢
  obtain ⟨a0, a1, a2, a3, a4, a5, a6⟩ := hm
  refine ⟨?_, ?_, ?_, ?_, ?_, ?_, ?_⟩ <;> intro hc
  · rw [hfr _ (by omega)]; exact a0 hc
  · rw [hfr _ (by omega)]; exact a1 hc
  · rw [hfr _ (by omega)]; exact a2 hc
  · rw [hfr _ (by omega)]; exact a3 hc
  · rw [hfr _ (by omega)]; exact a4 hc
  · rw [hfr _ (by omega)]; exact a5 hc
  · rw [hfr _ (by omega)]; exact a6 hc

/-- Bytes of palette slot `k` after a successful encode. -/
theorem encode_palette_bytes (env : EncEnv) (avctx : AVCodecContext) (pkt : AVPacket)
    (pict : AVFrame) (gp : Int) (hb : avctx.bits_per_coded_sample = 8)
    (hok : (utah_encode_frame env avctx pkt pict gp).ret = 0) (k c : Nat) (hk : k < 256)
    (hc : c < 4) :
    (utah_encode_frame env avctx pkt pict gp).pkt.data (26 + 4 * k + c)
      = byte ((env.avpriv_set_systematic_pal2 avctx.pix_fmt k &&& 0xFFFFFF) / 256 ^ c) := by
  obtain ⟨m0, s, hpos, _, hmem, hdata⟩ := encode_ok_data env avctx pkt pict gp hb hok
  rw [hdata, enc_row_loop_frame _ _ _ _ _ _ _ (by omega), hmem]
  have := enc_palette_loop_mem (env.avpriv_set_systematic_pal2 avctx.pix_fmt) 256 0
    (enc_put_header { pos := 0, mem := m0, writes := [] }
            (avctx.height * (avctx.width + enc_pad avctx.width) + 1050) 1050
            avctx.width avctx.height 8
            (avctx.height * (avctx.width + enc_pad avctx.width))) k c hk hc
  rw [enc_put_header_pos] at this
  simpa using this

/-- Pixel and padding bytes of stored row `i` after a successful encode. -/
theorem encode_row_bytes (env : EncEnv) (avctx : AVCodecContext) (pkt : AVPacket)
    (pict : AVFrame) (gp : Int) (hb : avctx.bits_per_coded_sample = 8)
    (hok : (utah_encode_frame env avctx pkt pict gp).ret = 0) (i : Nat)
    (hi : i < avctx.height.toNat) :
    (∀ j, j < avctx.width.toNat →
      (utah_encode_frame env avctx pkt pict gp).pkt.data
          (1050 + i * (avctx.width.toNat + enc_pad avctx.width) + j)
        = pict.data0 ((avctx.height - 1 - i) * pict.linesize0 + j))
    ∧ (∀ j, j < enc_pad avctx.width →
      (utah_encode_frame env avctx pkt pict gp).pkt.data
          (1050 + i * (avctx.width.toNat + enc_pad avctx.width) + avctx.width.toNat + j) = 0) := by
  obtain ⟨m0, s, hpos, hptr, hmem, hdata⟩ := encode_ok_data env avctx pkt pict gp hb hok
  constructor
  · intro j hj
    have := enc_row_loop_pixel pict.data0 avctx.width.toNat (enc_pad avctx.width)
      pict.linesize0 avctx.height.toNat s i j hi hj
    rw [hpos, hptr] at this
    rw [hdata, this]
    congr 1
    ring
  · intro j hj
    have := enc_row_loop_padding pict.data0 avctx.width.toNat (enc_pad avctx.width)
      pict.linesize0 avctx.height.toNat s i j hi hj
    rw [hpos] at this
    rw [hdata, this]

theorem enc_row_loop_writes (src : Int → Byte) (bpr pad : Nat) (ls : Int) (n : Nat)
    (s : PackState) :
    (enc_row_loop src bpr pad ls n s).writes
      = s.writes ++ (List.range n).flatMap (fun k =>
          [(⟨s.pos + k * (bpr + pad), bpr⟩ : Access), ⟨s.pos + k * (bpr + pad) + bpr, pad⟩]) := by
  induction n generalizing s with
  | zero => simp [enc_row_loop]
  | succ n ih =>
    rw [enc_row_loop, ih, List.range_succ_eq_map]
    simp only [List.flatMap_cons, List.flatMap_map, List.append_assoc, Nat.zero_mul, Nat.add_zero]
    congr 2
    apply List.flatMap_congr
    intro k _
    have e : s.pos + bpr + pad + k * (bpr + pad) = s.pos + (k + 1) * (bpr + pad) := by
      rw [Nat.succ_mul]; omega
    rw [e]

/-- The write log of a successful encode: header, palette, rows. -/
theorem encode_ok_writes (env : EncEnv) (avctx : AVCodecContext) (pkt : AVPacket)
    (pict : AVFrame) (gp : Int) (hb : avctx.bits_per_coded_sample = 8)
    (hok : (utah_encode_frame env avctx pkt pict gp).ret = 0) :
    (utah_encode_frame env avctx pkt pict gp).writes
      = [⟨0, 4⟩, ⟨4, 4⟩, ⟨8, 4⟩, ⟨12, 4⟩, ⟨16, 4⟩, ⟨20, 2⟩, ⟨22, 4⟩]
        ++ (List.range 256).map (fun k => (⟨26 + 4 * k, 4⟩ : Access))
        ++ (List.range avctx.height.toNat).flatMap (fun k =>
            [(⟨1050 + k * (avctx.width.toNat + enc_pad avctx.width), avctx.width.toNat⟩ : Access),
             ⟨1050 + k * (avctx.width.toNat + enc_pad avctx.width) + avctx.width.toNat,
              enc_pad avctx.width⟩]) := by
  have e1 : (8 + 18 + 256 * 4 : Int) = 1050 := by norm_num
  have e2 : Int.toNat 256 = 256 := rfl
  have e3 : Int.toNat 1050 = 1050 := rfl
  unfold utah_encode_frame at hok ⊢
  simp only [hb, shl_one_eight, SIZE_UTAHFILEHEADER, SIZE_UTAHINFOHEADER, e1, e2, e3] at hok ⊢
  split at hok
  · rename_i hneg; simp only at hok; omega
  · rename_i hneg
    rw [if_neg hneg]
    simp only
    rw [enc_row_loop_writes, enc_palette_loop_writes, enc_put_header_writes, enc_put_header_pos]

/-! ## What `utah_decode_frame` leaves behind -/

/-- A buffer shorter than 8 bytes: the early return. -/
theorem decode_short (env : DecEnv) (avctx : AVCodecContext) (uctx : UtahContext)
    (picture : AVFrame) (gf : Int) (avpkt : AVPacket) (h : avpkt.size < 8) :
    utah_decode_frame env avctx uctx picture gf avpkt
      = { ret := AVERROR_INVALIDDATA, avctx := avctx, uctx := uctx, picture := picture,
          got_frame := gf, reads := [], file_size := none } := by
  unfold utah_decode_frame
  simp only [h, if_true]

/-- Every exit after the size check has read the six header fields first. -/
theorem decode_reads_header (env : DecEnv) (avctx : AVCodecContext) (uctx : UtahContext)
    (picture : AVFrame) (gf : Int) (avpkt : AVPacket) (h : 8 ≤ avpkt.size) :
    ∃ rest, (utah_decode_frame env avctx uctx picture gf avpkt).reads = header_reads ++ rest := by
  unfold utah_decode_frame
  simp only [if_neg (not_lt.mpr h)]
  split
  · exact ⟨[], by simp⟩
  · simp only
    rw [dec_row_loop_reads, dec_palette_loop_reads]
    exact ⟨_, by rw [List.append_assoc]⟩

/-- A non-negative return value means the size check and `ff_get_buffer` both
passed; the results are then those of the two loops. -/
theorem decode_ok (env : DecEnv) (avctx : AVCodecContext) (uctx : UtahContext)
    (picture : AVFrame) (gf : Int) (avpkt : AVPacket)
    (hacc : 0 ≤ (utah_decode_frame env avctx uctx picture gf avpkt).ret) :
    8 ≤ avpkt.size ∧ ∃ avf : AVFrame, ∃ s : RowState,
      s.pos = bytestream_get_le32 avpkt.data 4
      ∧ s.ptr = (toInt32 (bytestream_get_le32 avpkt.data 16) - 1) * avf.linesize0
      ∧ s.mem = avf.data0
      ∧ (utah_decode_frame env avctx uctx picture gf avpkt).ret = avpkt.size
      ∧ (utah_decode_frame env avctx uctx picture gf avpkt).got_frame = 1
      ∧ avf = (dec_get_buffer env (dec_set_dimensions avctx avpkt.data) uctx).2
      ∧ ¬ (dec_get_buffer env (dec_set_dimensions avctx avpkt.data) uctx).1 < 0
      ∧ (utah_decode_frame env avctx uctx picture gf avpkt).avctx
          = dec_set_dimensions avctx avpkt.data
      ∧ (utah_decode_frame env avctx uctx picture gf avpkt).picture.linesize0 = avf.linesize0
      ∧ (utah_decode_frame env avctx uctx picture gf avpkt).picture.data0
          = (dec_row_loop avpkt.data
              (dec_bytes_per_row (toInt32 (bytestream_get_le32 avpkt.data 12))
                (bytestream_get_le16 avpkt.data 20))
              (-avf.linesize0) (toInt32 (bytestream_get_le32 avpkt.data 16)).toNat s).mem
      ∧ (utah_decode_frame env avctx uctx picture gf avpkt).picture.data1
          = (dec_palette_loop avpkt.data (shl_one (bytestream_get_le16 avpkt.data 20)).toNat 0
              { pos := 8 + bytestream_get_le32 avpkt.data 8, pal := memset_palette avf.data1,
                reads := header_reads }).pal
      ∧ (utah_decode_frame env avctx uctx picture gf avpkt).reads
          = header_reads
            ++ (List.range (shl_one (bytestream_get_le16 avpkt.data 20)).toNat).map
                (fun k => (⟨8 + bytestream_get_le32 avpkt.data 8 + 4 * k, 4⟩ : Access))
            ++ (List.range (toInt32 (bytestream_get_le32 avpkt.data 16)).toNat).map
                (fun k => (⟨bytestream_get_le32 avpkt.data 4
                    + k * dec_bytes_per_row (toInt32 (bytestream_get_le32 avpkt.data 12))
                        (bytestream_get_le16 avpkt.data 20),
                  dec_bytes_per_row (toInt32 (bytestream_get_le32 avpkt.data 12))
                    (bytestream_get_le16 avpkt.data 20)⟩ : Access))
      ∧ (utah_decode_frame env avctx uctx picture gf avpkt).file_size
          = some (if toUInt32 avpkt.size < bytestream_get_le32 avpkt.data 0
                  then toUInt32 avpkt.size else bytestream_get_le32 avpkt.data 0) := by
  by_cases hs : avpkt.size < 8
  · rw [decode_short env avctx uctx picture gf avpkt hs] at hacc
    simp only [AVERROR_INVALIDDATA] at hacc
    omega
  · refine ⟨by omega, ?_⟩
    unfold utah_decode_frame at hacc ⊢
    simp only [if_neg hs] at hacc ⊢
    split at hacc
    · rename_i hneg; simp only at hacc; omega
    · rename_i hneg
      rw [if_neg hneg]
      refine ⟨(dec_get_buffer env (dec_set_dimensions avctx avpkt.data) uctx).2,
        { pos := bytestream_get_le32 avpkt.data 4
          ptr := (toInt32 (bytestream_get_le32 avpkt.data 16) - 1)
            * (dec_get_buffer env (dec_set_dimensions avctx avpkt.data) uctx).2.linesize0
          mem := (dec_get_buffer env (dec_set_dimensions avctx avpkt.data) uctx).2.data0
          reads := (dec_palette_loop avpkt.data
            (shl_one (bytestream_get_le16 avpkt.data 20)).toNat 0
            { pos := 8 + bytestream_get_le32 avpkt.data 8
              pal := memset_palette
                (dec_get_buffer env (dec_set_dimensions avctx avpkt.data) uctx).2.data1
              reads := header_reads }).reads },
        rfl, rfl, rfl, rfl, rfl, rfl, hneg, rfl, rfl, rfl, rfl, ?_, rfl⟩
      simp only
      rw [dec_row_loop_reads, dec_palette_loop_reads]
      rfl

/-- Past the size check, a successful `ff_get_buffer` is all that is needed for
the function to return the buffer size. -/
theorem decode_ret_of_alloc (env : DecEnv) (avctx : AVCodecContext) (uctx : UtahContext)
    (picture : AVFrame) (gf : Int) (avpkt : AVPacket) (h8 : 8 ≤ avpkt.size)
    (halloc : 0 ≤ (dec_get_buffer env (dec_set_dimensions avctx avpkt.data) uctx).1) :
    (utah_decode_frame env avctx uctx picture gf avpkt).ret = avpkt.size := by
  unfold utah_decode_frame
  simp only [if_neg (not_lt.mpr h8), if_neg (not_lt.mpr halloc)]

/-- Past the size check, a failing `ff_get_buffer` is returned as is, after the
six header reads and with `*got_frame` untouched. -/
theorem decode_alloc_failure (env : DecEnv) (avctx : AVCodecContext) (uctx : UtahContext)
    (picture : AVFrame) (gf : Int) (avpkt : AVPacket) (h8 : 8 ≤ avpkt.size)
    (halloc : (dec_get_buffer env (dec_set_dimensions avctx avpkt.data) uctx).1 < 0) :
    (utah_decode_frame env avctx uctx picture gf avpkt).ret
        = (dec_get_buffer env (dec_set_dimensions avctx avpkt.data) uctx).1
    ∧ (utah_decode_frame env avctx uctx picture gf avpkt).got_frame = gf
    ∧ (utah_decode_frame env avctx uctx picture gf avpkt).reads = header_reads := by
  unfold utah_decode_frame
  simp only [if_neg (not_lt.mpr h8), if_pos halloc, and_self]

theorem get_le32_lt (b : Nat → Byte) (p : Nat) : bytestream_get_le32 b p < 2 ^ 32 := by
  unfold bytestream_get_le32
  have := (b p).isLt
  have := (b (p + 1)).isLt
  have := (b (p + 2)).isLt
  have := (b (p + 3)).isLt
  omega

theorem get_le16_lt (b : Nat → Byte) (p : Nat) : bytestream_get_le16 b p < 2 ^ 16 := by
  unfold bytestream_get_le16
  have := (b p).isLt
  have := (b (p + 1)).isLt
  omega

/-- The alpha byte of a palette word: `0xFFU << 24 | w` keeps the low 24 bits of
`w` and forces the top byte. -/
theorem alpha_or (w : Nat) (hw : w < 2 ^ 32) :
    0xFF000000 ||| w = 0xFF000000 ||| (w &&& 0x00FFFFFF)
    ∧ (0xFF000000 ||| w) / 2 ^ 24 = 0xFF
    ∧ (0xFF000000 ||| w) % 2 ^ 24 = w % 2 ^ 24 := by
  have hM : w &&& 0x00FFFFFF = w % 2 ^ 24 := Nat.and_pow_two_sub_one_eq_mod w 24
  have hA : (0xFF000000 : Nat) = 2 ^ 24 * (2 ^ 8 - 1) := by norm_num
  have h1 : 0xFF000000 ||| w = 0xFF000000 ||| (w &&& 0x00FFFFFF) := by
    apply Nat.eq_of_testBit_eq
    intro i
    have hMb : Nat.testBit 0x00FFFFFF i = decide (i < 24) := Nat.testBit_two_pow_sub_one 24 i
    rw [Nat.testBit_or, Nat.testBit_or, Nat.testBit_and, hMb, hA, Nat.testBit_mul_pow_two,
      Nat.testBit_two_pow_sub_one]
    by_cases h24 : i < 24
    · simp [h24]
    · by_cases h32 : i < 32
      · have : i - 24 < 8 := by omega
        have : 24 ≤ i := by omega
        simp [*]
      · have hx := testBit_false_of_lt w i 32 hw (by omega)
        simp [hx, h24]
  have h2 : 0xFF000000 ||| (w &&& 0x00FFFFFF) = 0xFF000000 + w % 2 ^ 24 := by
    rw [hM, hA]
    exact (Nat.mul_add_lt_is_or (Nat.mod_lt _ (by norm_num)) _).symm
  rw [h1, h2]
  refine ⟨rfl, ?_, ?_⟩ <;> omega

/-! ## Round trip -/

theorem toInt32_toUInt32 (x : Int) (h0 : -2 ^ 31 ≤ x) (h1 : x < 2 ^ 31) :
    toInt32 (toUInt32 x) = x := by
  unfold toInt32 toUInt32
  split <;> omega

/-- The header fields of a successful encode, read back little-endian. -/
theorem encode_header_fields (env : EncEnv) (avctx : AVCodecContext) (pkt : AVPacket)
    (pict : AVFrame) (gp : Int) (hb : avctx.bits_per_coded_sample = 8)
    (hok : (utah_encode_frame env avctx pkt pict gp).ret = 0) :
    bytestream_get_le32 (utah_encode_frame env avctx pkt pict gp).pkt.data 0
        = toUInt32 (avctx.height * (avctx.width + enc_pad avctx.width) + 1050)
    ∧ bytestream_get_le32 (utah_encode_frame env avctx pkt pict gp).pkt.data 4 = 1050
    ∧ bytestream_get_le32 (utah_encode_frame env avctx pkt pict gp).pkt.data 8 = 18
    ∧ bytestream_get_le32 (utah_encode_frame env avctx pkt pict gp).pkt.data 12
        = toUInt32 avctx.width
    ∧ bytestream_get_le32 (utah_encode_frame env avctx pkt pict gp).pkt.data 16
        = toUInt32 avctx.height
    ∧ bytestream_get_le16 (utah_encode_frame env avctx pkt pict gp).pkt.data 20 = 8
    ∧ bytestream_get_le32 (utah_encode_frame env avctx pkt pict gp).pkt.data 22
        = toUInt32 (avctx.height * (avctx.width + enc_pad avctx.width)) := by
  have hbytes := encode_header_bytes env avctx pkt pict gp hb hok
  simp only at hbytes
  exact ⟨get_le32_of_bytes _ _ _ (toUInt32_lt _) (fun c hc => (hbytes c).1 hc),
    get_le32_of_bytes _ _ _ (by norm_num) (fun c hc => (hbytes c).2.1 hc),
    get_le32_of_bytes _ _ _ (by norm_num) (fun c hc => (hbytes c).2.2.1 hc),
    get_le32_of_bytes _ _ _ (toUInt32_lt _) (fun c hc => (hbytes c).2.2.2.1 hc),
    get_le32_of_bytes _ _ _ (toUInt32_lt _) (fun c hc => (hbytes c).2.2.2.2.1 hc),
    get_le16_of_bytes _ _ _ (by norm_num) (fun c hc => (hbytes c).2.2.2.2.2.1 hc),
    get_le32_of_bytes _ _ _ (toUInt32_lt _) (fun c hc => (hbytes c).2.2.2.2.2.2 hc)⟩

/-- Header and palette bytes depend only on the context and the palette, not on
the picture nor on what the packet buffer held before. -/
theorem encode_prefix_eq (env : EncEnv) (avctx : AVCodecContext) (pkt pkt' : AVPacket)
    (pict pict' : AVFrame) (gp gp' : Int) (hb : avctx.bits_per_coded_sample = 8)
    (hok : (utah_encode_frame env avctx pkt pict gp).ret = 0)
    (hok' : (utah_encode_frame env avctx pkt' pict' gp').ret = 0) (a : Nat) (ha : a < 1050) :
    (utah_encode_frame env avctx pkt' pict' gp').pkt.data a
      = (utah_encode_frame env avctx pkt pict gp).pkt.data a := by
  by_cases h26 : a < 26
  · have h1 := encode_header_bytes env avctx pkt pict gp hb hok
    have h2 := encode_header_bytes env avctx pkt' pict' gp' hb hok'
    simp only at h1 h2
    by_cases c0 : a < 4
    · have e : a = 0 + a := by omega
      rw [e, (h1 a).1 c0, (h2 a).1 c0]
    by_cases c1 : a < 8
    · have e : a = 4 + (a - 4) := by omega
      rw [e, (h1 (a - 4)).2.1 (by omega), (h2 (a - 4)).2.1 (by omega)]
    by_cases c2 : a < 12
    · have e : a = 8 + (a - 8) := by omega
      rw [e, (h1 (a - 8)).2.2.1 (by omega), (h2 (a - 8)).2.2.1 (by omega)]
    by_cases c3 : a < 16
    · have e : a = 12 + (a - 12) := by omega
      rw [e, (h1 (a - 12)).2.2.2.1 (by omega), (h2 (a - 12)).2.2.2.1 (by omega)]
    by_cases c4 : a < 20
    · have e : a = 16 + (a - 16) := by omega
      rw [e, (h1 (a - 16)).2.2.2.2.1 (by omega), (h2 (a - 16)).2.2.2.2.1 (by omega)]
    by_cases c5 : a < 22
    · have e : a = 20 + (a - 20) := by omega
      rw [e, (h1 (a - 20)).2.2.2.2.2.1 (by omega), (h2 (a - 20)).2.2.2.2.2.1 (by omega)]
    · have e : a = 22 + (a - 22) := by omega
      rw [e, (h1 (a - 22)).2.2.2.2.2.2 (by omega), (h2 (a - 22)).2.2.2.2.2.2 (by omega)]
  · have e : a = 26 + 4 * ((a - 26) / 4) + (a - 26) % 4 := by omega
    rw [e, encode_palette_bytes env avctx pkt pict gp hb hok _ _ (by omega) (by omega),
      encode_palette_bytes env avctx pkt' pict' gp' hb hok' _ _ (by omega) (by omega)]

/-- Decoding what the encoder wrote: the dimensions come back, and with a
destination row stride of at least the padded row size every stored row is
found, whole, in the in-memory row it came from. -/
theorem decode_encoded_rows (eenv : EncEnv) (denv : DecEnv) (ectx dctx : AVCodecContext)
    (pkt0 : AVPacket) (pict dpic : AVFrame) (gp0 gf : Int) (uctx : UtahContext)
    (hb : ectx.bits_per_coded_sample = 8)
    (hw0 : 0 ≤ ectx.width) (hw1 : ectx.width * 8 + 31 < 2 ^ 32)
    (hh0 : 0 ≤ ectx.height) (hh1 : ectx.height < 2 ^ 31)
    (hok : (utah_encode_frame eenv ectx pkt0 pict gp0).ret = 0)
    (hacc : 0 ≤ (utah_decode_frame denv dctx uctx dpic gf
        (utah_encode_frame eenv ectx pkt0 pict gp0).pkt).ret)
    (hstride : (computeRowStride ectx.width.toNat 8 : Int)
      ≤ (utah_decode_frame denv dctx uctx dpic gf
          (utah_encode_frame eenv ectx pkt0 pict gp0).pkt).picture.linesize0) :
    (utah_decode_frame denv dctx uctx dpic gf
        (utah_encode_frame eenv ectx pkt0 pict gp0).pkt).avctx.width = ectx.width
    ∧ (utah_decode_frame denv dctx uctx dpic gf
        (utah_encode_frame eenv ectx pkt0 pict gp0).pkt).avctx.height = ectx.height
    ∧ ∀ k j : Nat, k < ectx.height.toNat → j < computeRowStride ectx.width.toNat 8 →
        (utah_decode_frame denv dctx uctx dpic gf
          (utah_encode_frame eenv ectx pkt0 pict gp0).pkt).picture.data0
            ((ectx.height - 1 - k)
              * (utah_decode_frame denv dctx uctx dpic gf
                  (utah_encode_frame eenv ectx pkt0 pict gp0).pkt).picture.linesize0 + j)
          = (utah_encode_frame eenv ectx pkt0 pict gp0).pkt.data
              (1050 + k * computeRowStride ectx.width.toNat 8 + j) := by
  obtain ⟨_, f4, _, f12, f16, f20, _⟩ := encode_header_fields eenv ectx pkt0 pict gp0 hb hok
  obtain ⟨_, avf, s, hpos, hptr, hmem, _, _, _, _, hctx, hls, hd0, _, _, _⟩ :=
    decode_ok denv dctx uctx dpic gf _ hacc
  have hW : toInt32 (bytestream_get_le32 (utah_encode_frame eenv ectx pkt0 pict gp0).pkt.data 12)
      = ectx.width := by
    rw [f12]; exact toInt32_toUInt32 _ (by omega) (by omega)
  have hH : toInt32 (bytestream_get_le32 (utah_encode_frame eenv ectx pkt0 pict gp0).pkt.data 16)
      = ectx.height := by
    rw [f16]; exact toInt32_toUInt32 _ (by omega) (by omega)
  rw [hW, hH, f20, computeRowStride_eq_dec ectx.width hw0 hw1] at hd0
  rw [hH] at hptr
  rw [f4] at hpos
  refine ⟨?_, ?_, ?_⟩
  · rw [hctx]; exact hW
  · rw [hctx]; exact hH
  · intro k j hk hj
    have hL : (computeRowStride ectx.width.toNat 8 : Int) ≤ avf.linesize0 := by
      rw [← hls]; exact hstride
    have := dec_row_loop_mem (utah_encode_frame eenv ectx pkt0 pict gp0).pkt.data
      (computeRowStride ectx.width.toNat 8) avf.linesize0 hL ectx.height.toNat s k j hk hj
    rw [hpos, hptr] at this
    rw [hd0, hls, ← this]
    congr 1
    ring

/-- The four bytes of `p & 0xFFFFFF` in little-endian order. -/
theorem rgb_bytes (p : Nat) :
    (byte ((p &&& 0xFFFFFF) / 256 ^ 0)).val = p &&& 0xFF
    ∧ (byte ((p &&& 0xFFFFFF) / 256 ^ 1)).val = (p >>> 8) &&& 0xFF
    ∧ (byte ((p &&& 0xFFFFFF) / 256 ^ 2)).val = (p >>> 16) &&& 0xFF
    ∧ (byte ((p &&& 0xFFFFFF) / 256 ^ 3)).val = 0 := by
  have hM : p &&& 0xFFFFFF = p % 2 ^ 24 := Nat.and_pow_two_sub_one_eq_mod p 24
  have hB : ∀ x : Nat, x &&& 0xFF = x % 2 ^ 8 := fun x => Nat.and_pow_two_sub_one_eq_mod x 8
  rw [hM, hB, hB, hB, Nat.shiftRight_eq_div_pow, Nat.shiftRight_eq_div_pow]
  simp only [byte]
  refine ⟨?_, ?_, ?_, ?_⟩ <;> omega

/-- Past the size check the context holds the header's dimensions and the local
`file_size` holds the size field, clamped to the buffer size, whether or not
`ff_get_buffer` succeeds afterwards. -/
theorem decode_header (env : DecEnv) (avctx : AVCodecContext) (uctx : UtahContext)
    (picture : AVFrame) (gf : Int) (avpkt : AVPacket) (h8 : 8 ≤ avpkt.size) :
    (utah_decode_frame env avctx uctx picture gf avpkt).avctx = dec_set_dimensions avctx avpkt.data
    ∧ (utah_decode_frame env avctx uctx picture gf avpkt).file_size
        = some (if toUInt32 avpkt.size < bytestream_get_le32 avpkt.data 0
                then toUInt32 avpkt.size else bytestream_get_le32 avpkt.data 0) := by
  unfold utah_decode_frame
  simp only [if_neg (not_lt.mpr h8)]
  split <;> exact ⟨rfl, rfl⟩

/-- The first row write of a successful encode of at least one row. -/
theorem encode_first_row_write (env : EncEnv) (avctx : AVCodecContext) (pkt : AVPacket)
    (pict : AVFrame) (gp : Int) (hb : avctx.bits_per_coded_sample = 8)
    (hok : (utah_encode_frame env avctx pkt pict gp).ret = 0) (hh : 1 ≤ avctx.height) :
    (utah_encode_frame env avctx pkt pict gp).writes[263]? = some ⟨1050, avctx.width.toNat⟩ := by
  obtain ⟨n, hn⟩ : ∃ n, avctx.height.toNat = n + 1 := ⟨avctx.height.toNat - 1, by omega⟩
  have e : (List.range (n + 1)) = 0 :: List.map Nat.succ (List.range n) :=
    List.range_succ_eq_map n
  rw [encode_ok_writes env avctx pkt pict gp hb hok, hn, e, List.flatMap_cons]
  rw [List.getElem?_append_right (by simp)]
  simp

/-! ## Coverage of the packet by the encoder's writes -/

theorem shl_one_small (d : Nat) (hd : d ≤ 8) : shl_one d = ((2 ^ d : Nat) : Int) ∧ 2 ^ d ≤ 256 := by
  interval_cases d <;> decide

theorem get_le32_congr_bytes (b1 b2 : Nat → Byte) (p : Nat)
    (h : ∀ c, c < 4 → b1 (p + c) = b2 (p + c)) :
    bytestream_get_le32 b1 p = bytestream_get_le32 b2 p := by
  have h0 : b1 p = b2 p := h 0 (by omega)
  unfold bytestream_get_le32
  rw [h0, h 1 (by omega), h 2 (by omega), h 3 (by omega)]

theorem get_le16_congr_bytes (b1 b2 : Nat → Byte) (p : Nat)
    (h : ∀ c, c < 2 → b1 (p + c) = b2 (p + c)) :
    bytestream_get_le16 b1 p = bytestream_get_le16 b2 p := by
  have h0 : b1 p = b2 p := h 0 (by omega)
  unfold bytestream_get_le16
  rw [h0, h 1 (by omega)]

/-- The palette loop depends only on the bytes it reads. -/
theorem dec_palette_loop_congr_bytes (b1 b2 : Nat → Byte) (n i : Nat) (s : PalState)
    (h : ∀ k, k < n → ∀ c, c < 4 → b1 (s.pos + 4 * k + c) = b2 (s.pos + 4 * k + c)) :
    dec_palette_loop b1 n i s = dec_palette_loop b2 n i s := by
  induction n generalizing i s with
  | zero => rfl
  | succ n ih =>
    have h0 : bytestream_get_le32 b1 s.pos = bytestream_get_le32 b2 s.pos :=
      get_le32_congr_bytes b1 b2 s.pos (fun c hc => by
        have := h 0 (by omega) c hc
        simpa using this)
    rw [dec_palette_loop, dec_palette_loop, h0]
    apply ih
    intro k hk c hc
    have := h (k + 1) (by omega) c hc
    have e : s.pos + 4 * (k + 1) + c = s.pos + 4 + 4 * k + c := by omega
    rw [e] at this
    exact this

/-- The row loop depends only on the bytes it reads. -/
theorem dec_row_loop_congr_bytes (b1 b2 : Nat → Byte) (bpr : Nat) (ls : Int) (n : Nat)
    (s : RowState)
    (h : ∀ k, k < n → ∀ j, j < bpr → b1 (s.pos + k * bpr + j) = b2 (s.pos + k * bpr + j)) :
    dec_row_loop b1 bpr ls n s = dec_row_loop b2 bpr ls n s := by
  induction n generalizing s with
  | zero => rfl
  | succ n ih =>
    have hm : memcpy_in s.mem s.ptr b1 s.pos bpr = memcpy_in s.mem s.ptr b2 s.pos bpr := by
      funext a
      simp only [memcpy_in]
      split
      · rename_i hc
        have := h 0 (by omega) (a - s.ptr).toNat (by omega)
        simpa using this
      · rfl
    rw [dec_row_loop, dec_row_loop, hm]
    apply ih
    intro k hk j hj
    have := h (k + 1) (by omega) j hj
    have e : s.pos + (k + 1) * bpr + j = s.pos + bpr + k * bpr + j := by
      rw [Nat.succ_mul]; omega
    rw [e] at this
    exact this

/-- The result of `utah_decode_frame` depends only on the buffer size and on the
bytes the call reads, and among these not on bytes 0 to 3 when the row data
starts at offset 4 or later: the size field is read into `file_size` and not
used again. -/
theorem decode_congr_reads (env : DecEnv) (avctx : AVCodecContext) (uctx : UtahContext)
    (picture : AVFrame) (gf : Int) (p1 p2 : AVPacket) (hsz : p1.size = p2.size)
    (hagree : ∀ r ∈ (utah_decode_frame env avctx uctx picture gf p1).reads,
      ∀ k, r.off ≤ k → k < r.off + r.len → 4 ≤ k → p1.data k = p2.data k)
    (hoff : 4 ≤ bytestream_get_le32 p1.data 4) :
    (utah_decode_frame env avctx uctx picture gf p1).ret
      = (utah_decode_frame env avctx uctx picture gf p2).ret
    ∧ (utah_decode_frame env avctx uctx picture gf p1).avctx
      = (utah_decode_frame env avctx uctx picture gf p2).avctx
    ∧ (utah_decode_frame env avctx uctx picture gf p1).uctx
      = (utah_decode_frame env avctx uctx picture gf p2).uctx
    ∧ (utah_decode_frame env avctx uctx picture gf p1).picture
      = (utah_decode_frame env avctx uctx picture gf p2).picture
    ∧ (utah_decode_frame env avctx uctx picture gf p1).got_frame
      = (utah_decode_frame env avctx uctx picture gf p2).got_frame
    ∧ (utah_decode_frame env avctx uctx picture gf p1).reads
      = (utah_decode_frame env avctx uctx picture gf p2).reads := by
  by_cases hs : p1.size < 8
  · rw [decode_short env avctx uctx picture gf p1 hs,
      decode_short env avctx uctx picture gf p2 (by rw [← hsz]; exact hs)]
    exact ⟨rfl, rfl, rfl, rfl, rfl, rfl⟩
  · have h8 : 8 ≤ p1.size := by omega
    obtain ⟨rest, hrest⟩ := decode_reads_header env avctx uctx picture gf p1 h8
    have hhdr : ∀ r ∈ header_reads, ∀ c, c < r.len → 4 ≤ r.off →
        p1.data (r.off + c) = p2.data (r.off + c) := by
      intro r hr c hc h4
      exact hagree r (by rw [hrest]; exact List.mem_append_left _ hr) (r.off + c) (by omega)
        (by omega) (by omega)
    have h4 : bytestream_get_le32 p1.data 4 = bytestream_get_le32 p2.data 4 :=
      get_le32_congr_bytes _ _ 4 (fun c hc => hhdr ⟨4, 4⟩ (by simp [header_reads]) c hc (by simp))
    have h8' : bytestream_get_le32 p1.data 8 = bytestream_get_le32 p2.data 8 :=
      get_le32_congr_bytes _ _ 8 (fun c hc => hhdr ⟨8, 4⟩ (by simp [header_reads]) c hc (by simp))
    have h12 : bytestream_get_le32 p1.data 12 = bytestream_get_le32 p2.data 12 :=
      get_le32_congr_bytes _ _ 12 (fun c hc => hhdr ⟨12, 4⟩ (by simp [header_reads]) c hc (by simp))
    have h16 : bytestream_get_le32 p1.data 16 = bytestream_get_le32 p2.data 16 :=
      get_le32_congr_bytes _ _ 16 (fun c hc => hhdr ⟨16, 4⟩ (by simp [header_reads]) c hc (by simp))
    have h20 : bytestream_get_le16 p1.data 20 = bytestream_get_le16 p2.data 20 :=
      get_le16_congr_bytes _ _ 20 (fun c hc => hhdr ⟨20, 2⟩ (by simp [header_reads]) c hc (by simp))
    have hdim : dec_set_dimensions avctx p1.data = dec_set_dimensions avctx p2.data := by
      unfold dec_set_dimensions
      rw [h12, h16]
    have hs2 : ¬ p2.size < 8 := by rw [← hsz]; exact hs
    by_cases hfail : (dec_get_buffer env (dec_set_dimensions avctx p1.data) uctx).1 < 0
    · have hfail2 : (dec_get_buffer env (dec_set_dimensions avctx p2.data) uctx).1 < 0 := by
        rw [← hdim]; exact hfail
      unfold utah_decode_frame
      simp only [if_neg hs, if_neg hs2, if_pos hfail, if_pos hfail2, hdim, and_self]
    · have hok2 : ¬ (dec_get_buffer env (dec_set_dimensions avctx p2.data) uctx).1 < 0 := by
        rw [← hdim]; exact hfail
      have hret := decode_ret_of_alloc env avctx uctx picture gf p1 h8 (by omega)
      obtain ⟨_, avf, s, _, _, _, _, _, _, _, _, _, _, _, hreads, _⟩ :=
        decode_ok env avctx uctx picture gf p1 (by rw [hret]; omega)
      have hpalb : ∀ k, k < (shl_one (bytestream_get_le16 p2.data 20)).toNat → ∀ c, c < 4 →
          p1.data (8 + bytestream_get_le32 p2.data 8 + 4 * k + c)
            = p2.data (8 + bytestream_get_le32 p2.data 8 + 4 * k + c) := by
        intro k hk c hc
        rw [← h8']
        rw [← h20] at hk
        apply hagree ⟨8 + bytestream_get_le32 p1.data 8 + 4 * k, 4⟩ _ _ (by simp only; omega)
          (by simp only; omega) (by omega)
        rw [hreads]
        apply List.mem_append_left
        apply List.mem_append_right
        exact List.mem_map.mpr ⟨k, List.mem_range.mpr hk, rfl⟩
      have hrowb : ∀ k, k < (toInt32 (bytestream_get_le32 p2.data 16)).toNat → ∀ j,
          j < dec_bytes_per_row (toInt32 (bytestream_get_le32 p2.data 12))
                (bytestream_get_le16 p2.data 20) →
          p1.data (bytestream_get_le32 p2.data 4
              + k * dec_bytes_per_row (toInt32 (bytestream_get_le32 p2.data 12))
                  (bytestream_get_le16 p2.data 20) + j)
            = p2.data (bytestream_get_le32 p2.data 4
              + k * dec_bytes_per_row (toInt32 (bytestream_get_le32 p2.data 12))
                  (bytestream_get_le16 p2.data 20) + j) := by
        intro k hk j hj
        rw [← h4, ← h12, ← h20]
        rw [← h16] at hk
        rw [← h12, ← h20] at hj
        apply hagree ⟨bytestream_get_le32 p1.data 4
            + k * dec_bytes_per_row (toInt32 (bytestream_get_le32 p1.data 12))
                (bytestream_get_le16 p1.data 20),
          dec_bytes_per_row (toInt32 (bytestream_get_le32 p1.data 12))
            (bytestream_get_le16 p1.data 20)⟩ _ _ (by simp only; omega)
          (by simp only; omega) (by omega)
        rw [hreads]
        apply List.mem_append_right
        exact List.mem_map.mpr ⟨k, List.mem_range.mpr hk, rfl⟩
      unfold utah_decode_frame
      simp only [if_neg hs, if_neg hs2, if_neg hfail, if_neg hok2, hsz, hdim, h4, h8', h20]
      rw [dec_palette_loop_congr_bytes p1.data p2.data _ _ _ (by simpa using hpalb)]
      rw [dec_row_loop_congr_bytes p1.data p2.data _ _ _ _ (by
        intro k hk j hj
        exact hrowb k hk j hj)]
      refine ⟨?_, ?_, ?_, ?_, ?_, ?_⟩ <;> first | rfl | trivial

/-! ## The claims -/

/-- C5 (row stride invariant).  For every `width` in `[1, 10000]` the decoder's
`bytes_per_row = ((width * 8 + 31) / 8) & ~3` is a multiple of 4, is at least
`width`, and so at least `ceil (width * 8 / 8)`. -/
theorem C5_row_stride_invariant (width : Int) (h1 : 1 ≤ width) (h2 : width ≤ 10000) :
    dec_bytes_per_row width 8 % 4 = 0
    ∧ width ≤ (dec_bytes_per_row width 8 : Int)
    ∧ (width * 8 + 7) / 8 ≤ (dec_bytes_per_row width 8 : Int) := by
  rw [dec_bytes_per_row_eight width (by omega) (by omega)]
  omega

/-- Witness for C5 at both ends of the range: widths 1 and 10000 give strides 4
and 10000. -/
theorem C5_row_stride_invariant_witness :
    (1 : Int) ≤ 10000 ∧ dec_bytes_per_row 1 8 = 4 ∧ dec_bytes_per_row 10000 8 = 10000
    ∧ dec_bytes_per_row 10000 8 % 4 = 0
    ∧ (10000 : Int) ≤ (dec_bytes_per_row 10000 8 : Int) :=
  ⟨by decide, by decide, by decide,
    (C5_row_stride_invariant 10000 (by decide) (by decide)).1,
    (C5_row_stride_invariant 10000 (by decide) (by decide)).2.1⟩

/-- C7 (truncated header).  For every input buffer of size less than 8,
`utah_decode_frame` returns `AVERROR_INVALIDDATA` (a negative value) and produces
no output: it reads no byte of the buffer, leaves `*got_frame` as it was, and
leaves the codec context (width, height, pixel format), the private frame
(raster and palette) and the caller's frame unchanged. -/
theorem C7_truncated_header (env : DecEnv) (avctx : AVCodecContext) (uctx : UtahContext)
    (picture : AVFrame) (gf : Int) (avpkt : AVPacket) (h : avpkt.size < 8) :
    let out := utah_decode_frame env avctx uctx picture gf avpkt
    out.ret = AVERROR_INVALIDDATA
    ∧ out.ret < 0
    ∧ out.reads = []
    ∧ out.got_frame = gf
    ∧ out.avctx = avctx
    ∧ out.uctx = uctx
    ∧ out.picture = picture := by
  intro out
  have e : out = _ := decode_short env avctx uctx picture gf avpkt h
  rw [e]
  have hneg : AVERROR_INVALIDDATA < 0 := by decide
  exact ⟨rfl, hneg, rfl, rfl, rfl, rfl, rfl⟩

/-- Witness for C7: a buffer of 7 bytes. -/
theorem C7_truncated_header_witness :
    ex_pkt7.size < 8
    ∧ (utah_decode_frame ex_dec_env ex_dec_ctx ⟨ex_blank_frame⟩ ex_blank_frame 0 ex_pkt7).ret
        = AVERROR_INVALIDDATA
    ∧ (utah_decode_frame ex_dec_env ex_dec_ctx ⟨ex_blank_frame⟩ ex_blank_frame 0 ex_pkt7).reads
        = []
    ∧ (utah_decode_frame ex_dec_env ex_dec_ctx ⟨ex_blank_frame⟩ ex_blank_frame 0 ex_pkt7).got_frame
        = 0 :=
  ⟨by decide,
    (C7_truncated_header ex_dec_env ex_dec_ctx ⟨ex_blank_frame⟩ ex_blank_frame 0 ex_pkt7
      (by decide)).1,
    (C7_truncated_header ex_dec_env ex_dec_ctx ⟨ex_blank_frame⟩ ex_blank_frame 0 ex_pkt7
      (by decide)).2.2.1,
    (C7_truncated_header ex_dec_env ex_dec_ctx ⟨ex_blank_frame⟩ ex_blank_frame 0 ex_pkt7
      (by decide)).2.2.2.1⟩

/-- C9 (oversized declared size is not fatal).  For every input buffer of size at
least 8 whose `totalFileSize` field (offset 0) exceeds the buffer size, and for
which `ff_get_buffer` hands out a frame, `utah_decode_frame` does not fail: the
local `file_size` is clamped to the buffer size, decoding goes on through the
palette and row loops, `*got_frame` is set to 1 and the buffer size is
returned. -/
theorem C9_oversized_declared_size (env : DecEnv) (avctx : AVCodecContext)
    (uctx : UtahContext) (picture : AVFrame) (gf : Int) (avpkt : AVPacket)
    (h8 : 8 ≤ avpkt.size)
    (hbig : avpkt.size < (bytestream_get_le32 avpkt.data 0 : Int))
    (halloc : 0 ≤ (dec_get_buffer env (dec_set_dimensions avctx avpkt.data) uctx).1) :
    let out := utah_decode_frame env avctx uctx picture gf avpkt
    out.ret = avpkt.size
    ∧ 0 ≤ out.ret
    ∧ out.ret ≠ AVERROR_INVALIDDATA
    ∧ out.got_frame = 1
    ∧ out.file_size = some avpkt.size.toNat
    ∧ out.reads.length
        = 6 + (shl_one (bytestream_get_le16 avpkt.data 20)).toNat
            + (toInt32 (bytestream_get_le32 avpkt.data 16)).toNat := by
  intro out
  have hret : out.ret = avpkt.size := decode_ret_of_alloc env avctx uctx picture gf avpkt h8 halloc
  have hacc : 0 ≤ out.ret := by rw [hret]; omega
  obtain ⟨_, avf, s, _, _, _, _, hgf, _, _, _, _, _, _, hreads, hfs⟩ :=
    decode_ok env avctx uctx picture gf avpkt hacc
  have hle := get_le32_lt avpkt.data 0
  have hu : toUInt32 avpkt.size = avpkt.size.toNat := toUInt32_of_nonneg _ (by omega) (by omega)
  refine ⟨hret, hacc, ?_, hgf, ?_, ?_⟩
  · rw [hret]; simp only [AVERROR_INVALIDDATA]; omega
  · show (utah_decode_frame env avctx uctx picture gf avpkt).file_size = _
    rw [hfs, hu, if_pos (by omega)]
  · show (utah_decode_frame env avctx uctx picture gf avpkt).reads.length = _
    rw [hreads]
    simp only [header_reads, List.length_append, List.length_map, List.length_range,
      List.length_cons, List.length_nil]

/-- Witness for C9: the size field says 10000, the buffer has 500 bytes. -/
theorem C9_oversized_declared_size_witness :
    (8 : Int) ≤ ex_pkt500.size
    ∧ bytestream_get_le32 ex_pkt500.data 0 = 10000
    ∧ ex_pkt500.size < (bytestream_get_le32 ex_pkt500.data 0 : Int)
    ∧ (utah_decode_frame ex_dec_env ex_dec_ctx ⟨ex_blank_frame⟩ ex_blank_frame 0 ex_pkt500).ret
        = 500
    ∧ (utah_decode_frame ex_dec_env ex_dec_ctx ⟨ex_blank_frame⟩ ex_blank_frame 0 ex_pkt500).got_frame
        = 1 :=
  ⟨by decide, by decide, by decide,
    (C9_oversized_declared_size ex_dec_env ex_dec_ctx ⟨ex_blank_frame⟩ ex_blank_frame 0 ex_pkt500
      (by decide) (by decide) (by decide)).1,
    (C9_oversized_declared_size ex_dec_env ex_dec_ctx ⟨ex_blank_frame⟩ ex_blank_frame 0 ex_pkt500
      (by decide) (by decide) (by decide)).2.2.2.1⟩

/-- C6, counterexample.  The 500-byte buffer `ex_pkt500` declares 4 bits per
pixel and is accepted; the decoder then writes `1 << 4 = 16` palette entries,
and entry 16 keeps the zero of the `memset`: its top byte is `0`, not `0xFF`, and
it is not `0xFF000000 | (w & 0x00FFFFFF)` for the word `w` of its slot. -/
theorem C6_palette_alpha_counterexample :
    0 ≤ (utah_decode_frame ex_dec_env ex_dec_ctx ⟨ex_blank_frame⟩ ex_blank_frame 0 ex_pkt500).ret
    ∧ bytestream_get_le16 ex_pkt500.data 20 = 4
    ∧ (utah_decode_frame ex_dec_env ex_dec_ctx ⟨ex_blank_frame⟩ ex_blank_frame 0
        ex_pkt500).picture.data1 16 = 0
    ∧ (utah_decode_frame ex_dec_env ex_dec_ctx ⟨ex_blank_frame⟩ ex_blank_frame 0
        ex_pkt500).picture.data1 16 / 2 ^ 24 ≠ 0xFF
    ∧ (utah_decode_frame ex_dec_env ex_dec_ctx ⟨ex_blank_frame⟩ ex_blank_frame 0
        ex_pkt500).picture.data1 16
      ≠ 0xFF000000 ||| (bytestream_get_le32 ex_pkt500.data
          (8 + bytestream_get_le32 ex_pkt500.data 8 + 4 * 16) &&& 0x00FFFFFF) := by
  decide

/-- C10, the code at the failing input.  `ex_pkt8` is a buffer of 8 bytes: it
passes the only size check, so it is not rejected (the call returns 8 and sets
`*got_frame`), yet the six header reads are made all the same and four of them
(`infoHeaderSize`, `width`, `height`, `bitsPerPixel` at offsets 8 to 21) lie
wholly outside the buffer; the values found there are used as the image
dimensions. -/
theorem C10_header_reads_past_buffer :
    ex_pkt8.size = 8
    ∧ (utah_decode_frame ex_dec_env ex_dec_ctx ⟨ex_blank_frame⟩ ex_blank_frame 0 ex_pkt8).ret = 8
    ∧ (utah_decode_frame ex_dec_env ex_dec_ctx ⟨ex_blank_frame⟩ ex_blank_frame 0 ex_pkt8).ret
        ≠ AVERROR_INVALIDDATA
    ∧ (utah_decode_frame ex_dec_env ex_dec_ctx ⟨ex_blank_frame⟩ ex_blank_frame 0 ex_pkt8).got_frame
        = 1
    ∧ (utah_decode_frame ex_dec_env ex_dec_ctx ⟨ex_blank_frame⟩ ex_blank_frame 0
        ex_pkt8).reads.take 6
        = [⟨0, 4⟩, ⟨4, 4⟩, ⟨8, 4⟩, ⟨12, 4⟩, ⟨16, 4⟩, ⟨20, 2⟩]
    ∧ (∀ a ∈ ((utah_decode_frame ex_dec_env ex_dec_ctx ⟨ex_blank_frame⟩ ex_blank_frame 0
        ex_pkt8).reads.take 6).drop 2, 8 ≤ a.off)
    ∧ ¬ (∀ a ∈ (utah_decode_frame ex_dec_env ex_dec_ctx ⟨ex_blank_frame⟩ ex_blank_frame 0
        ex_pkt8).reads.take 6, a.within 8)
    ∧ (utah_decode_frame ex_dec_env ex_dec_ctx ⟨ex_blank_frame⟩ ex_blank_frame 0 ex_pkt8).avctx.width
        = 2
    ∧ (utah_decode_frame ex_dec_env ex_dec_ctx ⟨ex_blank_frame⟩ ex_blank_frame 0 ex_pkt8).avctx.height
        = 2 := by
  decide

/-- C1 (round trip).  For every width and height in `[1, 4096]`, every raster and
every encoder palette: encode the raster with `utah_encode_frame`, decode the
packet with `utah_decode_frame` into a frame whose row stride is at least the
padded row size, and encode the decoded frame again with the decoded
dimensions.  The second packet has the same size as the first and the same
byte at every offset below that size. -/
theorem C1_round_trip (eenv : EncEnv) (denv : DecEnv) (ectx dctx : AVCodecContext)
    (pkt0 pkt1 : AVPacket) (pict dpic : AVFrame) (gp0 gp1 gf : Int) (uctx : UtahContext)
    (hb : ectx.bits_per_coded_sample = 8)
    (hw1 : 1 ≤ ectx.width) (hw2 : ectx.width ≤ 4096)
    (hh1 : 1 ≤ ectx.height) (hh2 : ectx.height ≤ 4096)
    (hok1 : (utah_encode_frame eenv ectx pkt0 pict gp0).ret = 0)
    (hacc : 0 ≤ (utah_decode_frame denv dctx uctx dpic gf
        (utah_encode_frame eenv ectx pkt0 pict gp0).pkt).ret)
    (hstride : (computeRowStride ectx.width.toNat 8 : Int)
      ≤ (utah_decode_frame denv dctx uctx dpic gf
          (utah_encode_frame eenv ectx pkt0 pict gp0).pkt).picture.linesize0)
    (hok2 : (utah_encode_frame eenv
        (reencode_ctx ectx (utah_decode_frame denv dctx uctx dpic gf
          (utah_encode_frame eenv ectx pkt0 pict gp0).pkt))
        pkt1
        (utah_decode_frame denv dctx uctx dpic gf
          (utah_encode_frame eenv ectx pkt0 pict gp0).pkt).picture gp1).ret = 0) :
    let e1 := utah_encode_frame eenv ectx pkt0 pict gp0
    let d := utah_decode_frame denv dctx uctx dpic gf e1.pkt
    let e2 := utah_encode_frame eenv (reencode_ctx ectx d) pkt1 d.picture gp1
    e2.total_bytes = e1.total_bytes
    ∧ ∀ a : Nat, (a : Int) < e1.total_bytes → e2.pkt.data a = e1.pkt.data a := by
  intro e1 d e2
  obtain ⟨hdw, hdh, hrows⟩ := decode_encoded_rows eenv denv ectx dctx pkt0 pict dpic gp0 gf uctx
    hb (by omega) (by omega) (by omega) (by omega) hok1 hacc hstride
  have hctx : reencode_ctx ectx d = ectx := by
    show reencode_ctx ectx (utah_decode_frame denv dctx uctx dpic gf
      (utah_encode_frame eenv ectx pkt0 pict gp0).pkt) = ectx
    unfold reencode_ctx
    rw [hdw, hdh]
  have he2 : e2 = utah_encode_frame eenv ectx pkt1 d.picture gp1 := by
    show utah_encode_frame eenv (reencode_ctx ectx d) pkt1 d.picture gp1 = _
    rw [hctx]
  have hok2' : (utah_encode_frame eenv ectx pkt1 d.picture gp1).ret = 0 := by
    rw [← he2]; exact hok2
  have hst := (enc_pad_eq_stride ectx.width (by omega)).1
  have htot : ∀ (p : AVPacket) (f : AVFrame) (g : Int),
      (utah_encode_frame eenv ectx p f g).total_bytes
        = ectx.height * (computeRowStride ectx.width.toNat 8 : Int) + 1050 := by
    intro p f g
    obtain ⟨_, _, himg, ht⟩ := encode_locals eenv ectx p f g
    rw [ht, himg, encode_header_size eenv ectx p f g hb,
      (enc_pad_eq_stride ectx.width (by omega)).2]
  constructor
  · rw [he2, htot]; exact (htot pkt0 pict gp0).symm
  · intro a ha
    rw [he2]
    by_cases hpre : a < 1050
    · exact encode_prefix_eq eenv ectx pkt0 pkt1 pict d.picture gp0 gp1 hb hok1 hok2' a hpre
    · have hR : 0 < computeRowStride ectx.width.toNat 8 := by omega
      have hlt : a - 1050 < ectx.height.toNat * computeRowStride ectx.width.toNat 8 := by
        have h1 : (a : Int) < ectx.height * (computeRowStride ectx.width.toNat 8 : Int) + 1050 := by
          rw [← htot pkt0 pict gp0]; exact ha
        have h2 : ((ectx.height.toNat * computeRowStride ectx.width.toNat 8 : Nat) : Int)
            = ectx.height * (computeRowStride ectx.width.toNat 8 : Int) := by
          push_cast
          rw [Int.toNat_of_nonneg (by omega)]
        omega
      have hk : (a - 1050) / computeRowStride ectx.width.toNat 8 < ectx.height.toNat :=
        Nat.div_lt_of_lt_mul (by rw [Nat.mul_comm]; exact hlt)
      have hj := Nat.mod_lt (a - 1050) hR
      have hdm := Nat.div_add_mod (a - 1050) (computeRowStride ectx.width.toNat 8)
      have ea : a = 1050 + (a - 1050) / computeRowStride ectx.width.toNat 8
          * computeRowStride ectx.width.toNat 8
          + (a - 1050) % computeRowStride ectx.width.toNat 8 := by
        rw [Nat.mul_comm] at hdm
        omega
      have r1 := encode_row_bytes eenv ectx pkt0 pict gp0 hb hok1 _ hk
      have r2 := encode_row_bytes eenv ectx pkt1 d.picture gp1 hb hok2' _ hk
      rw [hst] at r1 r2
      by_cases hpix : (a - 1050) % computeRowStride ectx.width.toNat 8 < ectx.width.toNat
      · rw [ea, r2.1 _ hpix]
        exact hrows _ _ hk hj
      · have epad : (a - 1050) % computeRowStride ectx.width.toNat 8
            = ectx.width.toNat
              + ((a - 1050) % computeRowStride ectx.width.toNat 8 - ectx.width.toNat) := by
          omega
        have hpadlt : (a - 1050) % computeRowStride ectx.width.toNat 8 - ectx.width.toNat
            < enc_pad ectx.width := by omega
        have z1 := r1.2 _ hpadlt
        have z2 := r2.2 _ hpadlt
        rw [Nat.add_assoc, ← epad] at z1 z2
        rw [← ea] at z1 z2
        rw [z1, z2]

/-- Witness for C1: the 2x2 example, decoded into rows 32 bytes apart and encoded
again, gives 1058 bytes once more, with the same eight row bytes. -/
theorem C1_round_trip_witness :
    ex_ctx22.bits_per_coded_sample = 8
    ∧ (1 ≤ ex_ctx22.width ∧ ex_ctx22.width ≤ 4096)
    ∧ (1 ≤ ex_ctx22.height ∧ ex_ctx22.height ≤ 4096)
    ∧ (utah_encode_frame ex_enc_env ex_ctx22 ex_pkt ex_pict22 0).ret = 0
    ∧ 0 ≤ (utah_decode_frame ex_dec_env ex_dec_ctx ⟨ex_blank_frame⟩ ex_blank_frame 0
        (utah_encode_frame ex_enc_env ex_ctx22 ex_pkt ex_pict22 0).pkt).ret
    ∧ (computeRowStride ex_ctx22.width.toNat 8 : Int)
        ≤ (utah_decode_frame ex_dec_env ex_dec_ctx ⟨ex_blank_frame⟩ ex_blank_frame 0
            (utah_encode_frame ex_enc_env ex_ctx22 ex_pkt ex_pict22 0).pkt).picture.linesize0
    ∧ (List.range 8).map (fun k =>
        (utah_encode_frame ex_enc_env
          (reencode_ctx ex_ctx22 (utah_decode_frame ex_dec_env ex_dec_ctx ⟨ex_blank_frame⟩
            ex_blank_frame 0 (utah_encode_frame ex_enc_env ex_ctx22 ex_pkt ex_pict22 0).pkt))
          ex_pkt
          (utah_decode_frame ex_dec_env ex_dec_ctx ⟨ex_blank_frame⟩ ex_blank_frame 0
            (utah_encode_frame ex_enc_env ex_ctx22 ex_pkt ex_pict22 0).pkt).picture
          0).pkt.data (1050 + k)) = [0, 1, 0, 0, 1, 0, 0, 0]
    ∧ (utah_encode_frame ex_enc_env
          (reencode_ctx ex_ctx22 (utah_decode_frame ex_dec_env ex_dec_ctx ⟨ex_blank_frame⟩
            ex_blank_frame 0 (utah_encode_frame ex_enc_env ex_ctx22 ex_pkt ex_pict22 0).pkt))
          ex_pkt
          (utah_decode_frame ex_dec_env ex_dec_ctx ⟨ex_blank_frame⟩ ex_blank_frame 0
            (utah_encode_frame ex_enc_env ex_ctx22 ex_pkt ex_pict22 0).pkt).picture
          0).total_bytes
        = (utah_encode_frame ex_enc_env ex_ctx22 ex_pkt ex_pict22 0).total_bytes :=
  ⟨rfl, by decide, by decide, rfl, by decide, by decide, by decide,
    (C1_round_trip ex_enc_env ex_dec_env ex_ctx22 ex_dec_ctx ex_pkt ex_pkt ex_pict22
      ex_blank_frame 0 0 0 ⟨ex_blank_frame⟩ rfl (by decide) (by decide) (by decide) (by decide)
      rfl (by decide) (by decide) (by decide)).1⟩

/-- C16 (encoder and decoder agree on the row size).  For every `width >= 1` with
`width * 8 + 31 < 2 ^ 32`, the encoder's padded row length
`width + ((4 - width) & 3)` equals the decoder's
`bytes_per_row = ((width * 8 + 31) / 8) & ~3`; so the encoder's `pad` is
`rowStride - width`, and it lies in `[0, 3]`. -/
theorem C16_row_size_agreement (width : Int) (h1 : 1 ≤ width) (h2 : width * 8 + 31 < 2 ^ 32) :
    width + (enc_pad width : Int) = (dec_bytes_per_row width 8 : Int)
    ∧ (enc_pad width : Int) = (dec_bytes_per_row width 8 : Int) - width
    ∧ enc_pad width ≤ 3 := by
  have hs := (enc_pad_eq_stride width (by omega)).2
  have hd := computeRowStride_eq_dec width (by omega) h2
  have h3 : ∀ x : Nat, x &&& 3 = x % 4 := fun x => Nat.and_pow_two_sub_one_eq_mod x 2
  have hp : enc_pad width ≤ 3 := by
    unfold enc_pad
    rw [h3]
    omega
  rw [hd]
  omega

/-- Witness for C16: width 2 gives pad 2 and row size 4 on both sides; width
5 gives pad 3 and row size 8. -/
theorem C16_row_size_agreement_witness :
    (1 : Int) ≤ 5 ∧ (5 : Int) * 8 + 31 < 2 ^ 32
    ∧ enc_pad 2 = 2 ∧ dec_bytes_per_row 2 8 = 4
    ∧ enc_pad 5 = 3 ∧ dec_bytes_per_row 5 8 = 8
    ∧ (5 : Int) + (enc_pad 5 : Int) = (dec_bytes_per_row 5 8 : Int) :=
  ⟨by decide, by decide, by decide, by decide, by decide, by decide,
    (C16_row_size_agreement 5 (by decide) (by decide)).1⟩

/-- C15 (`computeRowStride` is a non-negative multiple of 4).  For every `width`
(any `int`) and every `bitsPerPixel` (any 16-bit value, indeed any unsigned
value), the decoder's `bytes_per_row = ((width * depth + 31) / 8) & ~3`,
computed in 32-bit unsigned arithmetic and stored in an `int`, is below
`2 ^ 29`, hence non-negative as an `int`, and divisible by 4. -/
theorem C15_row_stride_nonneg_multiple_of_four (width : Int) (depth : Nat) :
    dec_bytes_per_row width depth < 2 ^ 29
    ∧ toInt32 (dec_bytes_per_row width depth) = (dec_bytes_per_row width depth : Int)
    ∧ 0 ≤ toInt32 (dec_bytes_per_row width depth)
    ∧ toInt32 (dec_bytes_per_row width depth) % 4 = 0
    ∧ dec_bytes_per_row width depth % 4 = 0 := by
  have hx : ((toUInt32 width * depth) % 2 ^ 32 + 31) % 2 ^ 32 / 8 < 2 ^ 32 := by omega
  have e : dec_bytes_per_row width depth
      = 4 * ((((toUInt32 width * depth) % 2 ^ 32 + 31) % 2 ^ 32 / 8) / 4) := by
    unfold dec_bytes_per_row
    exact and_mask_fffffffc _ hx
  have hlt : dec_bytes_per_row width depth < 2 ^ 29 := by rw [e]; omega
  have hm : dec_bytes_per_row width depth % 4 = 0 := by rw [e]; omega
  have hi : toInt32 (dec_bytes_per_row width depth) = (dec_bytes_per_row width depth : Int) := by
    unfold toInt32
    split <;> omega
  refine ⟨hlt, hi, ?_, ?_, hm⟩
  · rw [hi]; omega
  · rw [hi]; omega

/-- C14 (palette serialisation).  With bit count 8, for every palette `pal` that
`avpriv_set_systematic_pal2` leaves in `palette256` and every `i` in `[0, 256)`,
a successful `utah_encode_frame` writes entry `i` as the 4-byte slot at output
offset `26 + 4 * i`: the bytes `pal[i] & 0xFF`, `(pal[i] >> 8) & 0xFF`,
`(pal[i] >> 16) & 0xFF`, then a fourth byte equal to 0.  The slot is the write
number `7 + i` of the call, and read back as a little-endian word it is
`pal[i] & 0xFFFFFF`. -/
theorem C14_palette_serialisation (env : EncEnv) (avctx : AVCodecContext) (pkt : AVPacket)
    (pict : AVFrame) (gp : Int) (hb : avctx.bits_per_coded_sample = 8)
    (hok : (utah_encode_frame env avctx pkt pict gp).ret = 0) (i : Nat) (hi : i < 256) :
    let out := utah_encode_frame env avctx pkt pict gp
    let pal := env.avpriv_set_systematic_pal2 avctx.pix_fmt
    (out.pkt.data (26 + 4 * i)).val = pal i &&& 0xFF
    ∧ (out.pkt.data (26 + 4 * i + 1)).val = (pal i >>> 8) &&& 0xFF
    ∧ (out.pkt.data (26 + 4 * i + 2)).val = (pal i >>> 16) &&& 0xFF
    ∧ (out.pkt.data (26 + 4 * i + 3)).val = 0
    ∧ bytestream_get_le32 out.pkt.data (26 + 4 * i) = pal i &&& 0xFFFFFF
    ∧ out.writes[7 + i]? = some ⟨26 + 4 * i, 4⟩ := by
  intro out pal
  have hbyte := fun c hc => encode_palette_bytes env avctx pkt pict gp hb hok i c hi hc
  obtain ⟨r0, r1, r2, r3⟩ := rgb_bytes (pal i)
  have b0 : (utah_encode_frame env avctx pkt pict gp).pkt.data (26 + 4 * i) = _ :=
    hbyte 0 (by omega)
  have b1 := hbyte 1 (by omega)
  have b2 := hbyte 2 (by omega)
  have b3 := hbyte 3 (by omega)
  have hlt : pal i &&& 0xFFFFFF < 2 ^ 32 := by
    have hM : pal i &&& 0xFFFFFF = pal i % 2 ^ 24 := Nat.and_pow_two_sub_one_eq_mod (pal i) 24
    rw [hM]; omega
  refine ⟨?_, ?_, ?_, ?_, ?_, ?_⟩
  · show ((utah_encode_frame env avctx pkt pict gp).pkt.data (26 + 4 * i)).val = _
    rw [← r0, ← b0]
  · show ((utah_encode_frame env avctx pkt pict gp).pkt.data (26 + 4 * i + 1)).val = _
    rw [← r1, ← b1]
  · show ((utah_encode_frame env avctx pkt pict gp).pkt.data (26 + 4 * i + 2)).val = _
    rw [← r2, ← b2]
  · show ((utah_encode_frame env avctx pkt pict gp).pkt.data (26 + 4 * i + 3)).val = _
    rw [← r3, ← b3]
  · exact get_le32_of_bytes _ _ _ hlt hbyte
  · show (utah_encode_frame env avctx pkt pict gp).writes[7 + i]? = _
    rw [encode_ok_writes env avctx pkt pict gp hb hok, List.append_assoc]
    rw [List.getElem?_append_right (by simp)]
    simp only [List.length_cons, List.length_nil]
    rw [List.getElem?_append_left (by simp; omega)]
    simp [hi]

/-- Witness for C14 on the 2x2 example, whose palette has `0xFFFFFF` at index 1:
the slot at offset 30 holds `255, 255, 255, 0`. -/
theorem C14_palette_serialisation_witness :
    ex_ctx22.bits_per_coded_sample = 8
    ∧ (utah_encode_frame ex_enc_env ex_ctx22 ex_pkt ex_pict22 0).ret = 0
    ∧ (List.range 4).map
        (fun c => (utah_encode_frame ex_enc_env ex_ctx22 ex_pkt ex_pict22 0).pkt.data (30 + c))
        = [255, 255, 255, 0]
    ∧ ((utah_encode_frame ex_enc_env ex_ctx22 ex_pkt ex_pict22 0).pkt.data (26 + 4 * 1 + 3)).val
        = 0 :=
  ⟨rfl, rfl, by decide,
    (C14_palette_serialisation ex_enc_env ex_ctx22 ex_pkt ex_pict22 0 rfl rfl 1
      (by decide)).2.2.2.1⟩

/-- C13 (header round trip).  Let `utah_encode_frame` succeed for `width, height >= 1`
(C `int` values, bit count 8) with a total size that fits in 32 bits, the
packet having the requested size.  Reading its output with the header steps of
`utah_decode_frame` gives back the same width and height, `bitsPerPixel = 8`,
`infoHeaderSize = 18`, `pixelDataOffset = headerSize = 1050` and a
`totalFileSize` equal to the packet size, so the clamp leaves `file_size`
alone.  The decoder's palette offset `8 + infoHeaderSize` is 26, where the
encoder made its first palette write, and `pixelDataOffset` is where the
encoder made its first row write. -/
theorem C13_header_round_trip (eenv : EncEnv) (denv : DecEnv) (ectx dctx : AVCodecContext)
    (pkt0 : AVPacket) (pict dpic : AVFrame) (gp0 gf : Int) (uctx : UtahContext)
    (hb : ectx.bits_per_coded_sample = 8)
    (hw1 : 1 ≤ ectx.width) (hw2 : ectx.width < 2 ^ 31)
    (hh1 : 1 ≤ ectx.height) (hh2 : ectx.height < 2 ^ 31)
    (hfit : (utah_encode_frame eenv ectx pkt0 pict gp0).total_bytes < 2 ^ 32)
    (hok : (utah_encode_frame eenv ectx pkt0 pict gp0).ret = 0)
    (hsize : (utah_encode_frame eenv ectx pkt0 pict gp0).pkt.size
      = (utah_encode_frame eenv ectx pkt0 pict gp0).total_bytes) :
    let e := utah_encode_frame eenv ectx pkt0 pict gp0
    let d := utah_decode_frame denv dctx uctx dpic gf e.pkt
    d.avctx.width = ectx.width
    ∧ d.avctx.height = ectx.height
    ∧ bytestream_get_le16 e.pkt.data 20 = 8
    ∧ bytestream_get_le32 e.pkt.data 8 = 18
    ∧ (bytestream_get_le32 e.pkt.data 4 : Int) = e.header_size
    ∧ e.header_size = 1050
    ∧ (bytestream_get_le32 e.pkt.data 0 : Int) = e.pkt.size
    ∧ d.file_size = some (bytestream_get_le32 e.pkt.data 0)
    ∧ 8 + bytestream_get_le32 e.pkt.data 8 = 26
    ∧ e.writes[7]? = some ⟨26, 4⟩
    ∧ e.writes[263]? = some ⟨bytestream_get_le32 e.pkt.data 4, ectx.width.toNat⟩ := by
  intro e d
  obtain ⟨f0, f4, f8, f12, f16, f20, _⟩ := encode_header_fields eenv ectx pkt0 pict gp0 hb hok
  obtain ⟨_, _, himg, htot⟩ := encode_locals eenv ectx pkt0 pict gp0
  have hhs := encode_header_size eenv ectx pkt0 pict gp0 hb
  have htb : (utah_encode_frame eenv ectx pkt0 pict gp0).total_bytes
      = ectx.height * (ectx.width + enc_pad ectx.width) + 1050 := by
    rw [htot, himg, hhs]
  have hpos : 0 ≤ ectx.height * (ectx.width + enc_pad ectx.width) :=
    Int.mul_nonneg (by omega) (by omega)
  have h8 : (8 : Int) ≤ (utah_encode_frame eenv ectx pkt0 pict gp0).pkt.size := by
    rw [hsize, htb]; omega
  obtain ⟨dctx', dfs⟩ := decode_header denv dctx uctx dpic gf
    (utah_encode_frame eenv ectx pkt0 pict gp0).pkt h8
  have hW : toInt32 (bytestream_get_le32 (utah_encode_frame eenv ectx pkt0 pict gp0).pkt.data 12)
      = ectx.width := by
    rw [f12]; exact toInt32_toUInt32 _ (by omega) (by omega)
  have hH : toInt32 (bytestream_get_le32 (utah_encode_frame eenv ectx pkt0 pict gp0).pkt.data 16)
      = ectx.height := by
    rw [f16]; exact toInt32_toUInt32 _ (by omega) (by omega)
  have hF : (bytestream_get_le32 (utah_encode_frame eenv ectx pkt0 pict gp0).pkt.data 0 : Int)
      = (utah_encode_frame eenv ectx pkt0 pict gp0).pkt.size := by
    rw [f0, hsize, htb, toUInt32_of_nonneg _ (by omega) (by rw [← htb]; exact hfit)]
    omega
  refine ⟨?_, ?_, f20, f8, ?_, hhs, hF, ?_, ?_, ?_, ?_⟩
  · show (utah_decode_frame denv dctx uctx dpic gf
      (utah_encode_frame eenv ectx pkt0 pict gp0).pkt).avctx.width = _
    rw [dctx']; exact hW
  · show (utah_decode_frame denv dctx uctx dpic gf
      (utah_encode_frame eenv ectx pkt0 pict gp0).pkt).avctx.height = _
    rw [dctx']; exact hH
  · show (bytestream_get_le32 (utah_encode_frame eenv ectx pkt0 pict gp0).pkt.data 4 : Int)
      = (utah_encode_frame eenv ectx pkt0 pict gp0).header_size
    rw [f4, hhs]; rfl
  · show (utah_decode_frame denv dctx uctx dpic gf
      (utah_encode_frame eenv ectx pkt0 pict gp0).pkt).file_size = _
    rw [dfs, if_neg]
    have hu : (toUInt32 (utah_encode_frame eenv ectx pkt0 pict gp0).pkt.size : Int)
        = (utah_encode_frame eenv ectx pkt0 pict gp0).pkt.size := by
      rw [toUInt32_of_nonneg _ (by omega) (by rw [hsize]; exact hfit)]; omega
    omega
  · show 8 + bytestream_get_le32 (utah_encode_frame eenv ectx pkt0 pict gp0).pkt.data 8 = 26
    rw [f8]
  · show (utah_encode_frame eenv ectx pkt0 pict gp0).writes[7]? = _
    rw [encode_ok_writes eenv ectx pkt0 pict gp0 hb hok]
    rfl
  · show (utah_encode_frame eenv ectx pkt0 pict gp0).writes[263]? = _
    rw [f4]
    exact encode_first_row_write eenv ectx pkt0 pict gp0 hb hok hh1

/-- Witness for C13: the 2x2 example, whose packet has the requested 1058 bytes. -/
theorem C13_header_round_trip_witness :
    ex_ctx22.bits_per_coded_sample = 8
    ∧ (1 ≤ ex_ctx22.width ∧ ex_ctx22.width < 2 ^ 31)
    ∧ (1 ≤ ex_ctx22.height ∧ ex_ctx22.height < 2 ^ 31)
    ∧ (utah_encode_frame ex_enc_env ex_ctx22 ex_pkt ex_pict22 0).total_bytes < 2 ^ 32
    ∧ (utah_encode_frame ex_enc_env ex_ctx22 ex_pkt ex_pict22 0).ret = 0
    ∧ (utah_encode_frame ex_enc_env ex_ctx22 ex_pkt ex_pict22 0).pkt.size = 1058
    ∧ bytestream_get_le32 (utah_encode_frame ex_enc_env ex_ctx22 ex_pkt ex_pict22 0).pkt.data 0
        = 1058
    ∧ (utah_decode_frame ex_dec_env ex_dec_ctx ⟨ex_blank_frame⟩ ex_blank_frame 0
        (utah_encode_frame ex_enc_env ex_ctx22 ex_pkt ex_pict22 0).pkt).avctx.width
        = ex_ctx22.width :=
  ⟨rfl, by decide, by decide, by decide, rfl, by decide, by decide,
    (C13_header_round_trip ex_enc_env ex_dec_env ex_ctx22 ex_dec_ctx ex_pkt ex_pict22
      ex_blank_frame 0 0 ⟨ex_blank_frame⟩ rfl (by decide) (by decide) (by decide) (by decide)
      (by decide) rfl (by decide)).1⟩

/-- C12, counterexample.  The accepted buffer `ex_pkt500` declares 4 bits per
pixel: the decoder writes palette indices 0 to 15 only.  Entry 15 is written (it
is `0xFF000000`, alpha forced on the zero word of its slot); entries 16 and 255
are not, they keep the zero of the `memset`. -/
theorem C12_palette_length_counterexample :
    0 ≤ (utah_decode_frame ex_dec_env ex_dec_ctx ⟨ex_blank_frame⟩ ex_blank_frame 0 ex_pkt500).ret
    ∧ shl_one (bytestream_get_le16 ex_pkt500.data 20) = 16
    ∧ (utah_decode_frame ex_dec_env ex_dec_ctx ⟨ex_blank_frame⟩ ex_blank_frame 0
        ex_pkt500).picture.data1 15 = 0xFF000000
    ∧ (utah_decode_frame ex_dec_env ex_dec_ctx ⟨ex_blank_frame⟩ ex_blank_frame 0
        ex_pkt500).picture.data1 16 = 0
    ∧ (utah_decode_frame ex_dec_env ex_dec_ctx ⟨ex_blank_frame⟩ ex_blank_frame 0
        ex_pkt500).picture.data1 255 = 0
    ∧ (utah_decode_frame ex_dec_env ex_dec_ctx ⟨ex_blank_frame⟩ ex_blank_frame 0
        ex_pkt500).reads.length = 6 + 16 + 100 := by
  decide

/-- C12 as amended.  For every input buffer `utah_decode_frame` accepts whose
`bitsPerPixel` is at most 8, the palette slot of 256 entries (1024 bytes) is
zero-filled and then the decoder writes exactly the palette indices
`0 .. 2 ^ bitsPerPixel - 1`: each of these holds its slot word with the top byte
forced to `0xFF`, every other index below 256 holds 0, and no entry at index 256
or above is touched.  For `bitsPerPixel = 8` the written indices are exactly
`0 .. 255`. -/
theorem C12_palette_length (env : DecEnv) (avctx : AVCodecContext) (uctx : UtahContext)
    (picture : AVFrame) (gf : Int) (avpkt : AVPacket)
    (hacc : 0 ≤ (utah_decode_frame env avctx uctx picture gf avpkt).ret)
    (hd : bytestream_get_le16 avpkt.data 20 ≤ 8) :
    let out := utah_decode_frame env avctx uctx picture gf avpkt
    let depth := bytestream_get_le16 avpkt.data 20
    let slot := (dec_get_buffer env (dec_set_dimensions avctx avpkt.data) uctx).2.data1
    shl_one depth = ((2 ^ depth : Nat) : Int)
    ∧ 2 ^ depth ≤ 256
    ∧ (∀ i, i < 2 ^ depth →
        out.picture.data1 i
          = 0xFF000000 ||| bytestream_get_le32 avpkt.data (8 + bytestream_get_le32 avpkt.data 8 + 4 * i)
        ∧ 0xFF000000 ≤ out.picture.data1 i)
    ∧ (∀ i, 2 ^ depth ≤ i → i < 256 → out.picture.data1 i = 0)
    ∧ (∀ i, 256 ≤ i → out.picture.data1 i = slot i)
    ∧ (depth = 8 → 2 ^ depth = 256) := by
  intro out depth slot
  obtain ⟨hs1, hs2⟩ := shl_one_small depth hd
  obtain ⟨_, avf, s, _, _, _, _, _, havf, _, _, _, _, hd1, _, _⟩ :=
    decode_ok env avctx uctx picture gf avpkt hacc
  have hn : (shl_one (bytestream_get_le16 avpkt.data 20)).toNat = 2 ^ depth := by
    show (shl_one depth).toNat = 2 ^ depth
    rw [hs1]; rfl
  have hpal : ∀ i, out.picture.data1 i
      = if 0 ≤ i ∧ i < 0 + 2 ^ depth
        then 0xFF000000 ||| bytestream_get_le32 avpkt.data
          (8 + bytestream_get_le32 avpkt.data 8 + 4 * (i - 0))
        else memset_palette avf.data1 i := by
    intro i
    show (utah_decode_frame env avctx uctx picture gf avpkt).picture.data1 i = _
    rw [hd1, dec_palette_loop_pal, hn]
  refine ⟨hs1, hs2, ?_, ?_, ?_, ?_⟩
  · intro i hi
    have e := hpal i
    rw [if_pos ⟨by omega, by omega⟩] at e
    simp only [Nat.sub_zero] at e
    refine ⟨e, ?_⟩
    rw [e]
    have := (alpha_or _ (get_le32_lt avpkt.data
      (8 + bytestream_get_le32 avpkt.data 8 + 4 * i))).2.1
    omega
  · intro i h1 h2
    rw [hpal i, if_neg (by omega)]
    simp only [memset_palette, if_pos h2]
  · intro i h1
    rw [hpal i, if_neg (by omega)]
    simp only [memset_palette, if_neg (show ¬ i < 256 by omega)]
    show avf.data1 i = (dec_get_buffer env (dec_set_dimensions avctx avpkt.data) uctx).2.data1 i
    rw [havf]
  · intro h8
    rw [h8]
    rfl

/-- Witness for the amended C12 on `ex_pkt500` (4 bits per pixel): entry 200 is 0
and entry 300 is what the allocator left there. -/
theorem C12_palette_length_witness :
    0 ≤ (utah_decode_frame ex_dec_env ex_dec_ctx ⟨ex_blank_frame⟩ ex_blank_frame 0 ex_pkt500).ret
    ∧ bytestream_get_le16 ex_pkt500.data 20 ≤ 8
    ∧ (utah_decode_frame ex_dec_env ex_dec_ctx ⟨ex_blank_frame⟩ ex_blank_frame 0
        ex_pkt500).picture.data1 200 = 0
    ∧ 2 ^ bytestream_get_le16 ex_pkt500.data 20 ≤ 256 :=
  ⟨by decide, by decide,
    (C12_palette_length ex_dec_env ex_dec_ctx ⟨ex_blank_frame⟩ ex_blank_frame 0 ex_pkt500
      (by decide) (by decide)).2.2.2.1 200 (by decide) (by decide),
    (C12_palette_length ex_dec_env ex_dec_ctx ⟨ex_blank_frame⟩ ex_blank_frame 0 ex_pkt500
      (by decide) (by decide)).2.1⟩

/-- C19, counterexample.  `ex_pkt_size_a` and `ex_pkt_size_b` have the same size 34
and differ only in bytes 0 to 3, but their `pixelDataOffset` field is 0, so the
row copy starts at the size field itself: both are accepted with return value
34, and the first byte of the decoded raster is 34 for the one and 33 for the
other. -/
theorem C19_size_field_independence_counterexample :
    ex_pkt_size_a.size = ex_pkt_size_b.size
    ∧ (8 : Int) ≤ ex_pkt_size_a.size
    ∧ (∀ k, 4 ≤ k → ex_pkt_size_a.data k = ex_pkt_size_b.data k)
    ∧ bytestream_get_le32 ex_pkt_size_a.data 4 = 0
    ∧ (utah_decode_frame ex_dec_env ex_dec_ctx ⟨ex_blank_frame⟩ ex_blank_frame 0
        ex_pkt_size_a).ret = 34
    ∧ (utah_decode_frame ex_dec_env ex_dec_ctx ⟨ex_blank_frame⟩ ex_blank_frame 0
        ex_pkt_size_b).ret = 34
    ∧ (∀ r ∈ (utah_decode_frame ex_dec_env ex_dec_ctx ⟨ex_blank_frame⟩ ex_blank_frame 0
        ex_pkt_size_a).reads, r.off + r.len ≤ 34)
    ∧ (utah_decode_frame ex_dec_env ex_dec_ctx ⟨ex_blank_frame⟩ ex_blank_frame 0
        ex_pkt_size_a).picture.data0 0 = 34
    ∧ (utah_decode_frame ex_dec_env ex_dec_ctx ⟨ex_blank_frame⟩ ex_blank_frame 0
        ex_pkt_size_b).picture.data0 0 = 33 := by
  refine ⟨rfl, by decide, ?_, by decide, by decide, by decide, by decide, by decide, by decide⟩
  intro k hk
  obtain ⟨n, rfl⟩ : ∃ n, k = n + 4 := ⟨k - 4, by omega⟩
  rfl

/-- C11, counterexample.  With a pixel format other than `RGB8` (and other than
`NONE`), `utah_encode_init` returns 0, not an error, and sets the bit count to 8;
`utah_encode_frame` called with the context it leaves succeeds and makes its
267 writes into the packet. -/
theorem C11_unsupported_format_counterexample :
    ex_ctx_rgb24.pix_fmt ≠ AVPixelFormat.RGB8
    ∧ (utah_encode_init (fun _ => ex_blank_frame) ex_ctx_rgb24 ⟨ex_blank_frame⟩).ret = 0
    ∧ (utah_encode_init (fun _ => ex_blank_frame) ex_ctx_rgb24
        ⟨ex_blank_frame⟩).avctx.bits_per_coded_sample = 8
    ∧ (utah_encode_frame ex_enc_env
        (utah_encode_init (fun _ => ex_blank_frame) ex_ctx_rgb24 ⟨ex_blank_frame⟩).avctx
        ex_pkt ex_pict22 0).ret = 0
    ∧ (utah_encode_frame ex_enc_env
        (utah_encode_init (fun _ => ex_blank_frame) ex_ctx_rgb24 ⟨ex_blank_frame⟩).avctx
        ex_pkt ex_pict22 0).writes.length = 267
    ∧ (utah_encode_frame ex_enc_env
        (utah_encode_init (fun _ => ex_blank_frame) ex_ctx_rgb24 ⟨ex_blank_frame⟩).avctx
        ex_pkt ex_pict22 0).got_packet = 1 := by
  decide

/-- C11 as amended.  `utah_encode_init` first resets the picture of the private
context to the frame defaults and points `coded_frame` at it, whatever the pixel
format.  It then fails exactly when the pixel format is `AV_PIX_FMT_NONE`: it
returns `-1` and changes nothing else.  For every other pixel format, `RGB8` or
not, it returns 0 and sets `bits_per_coded_sample` to 8.  The restriction to
`RGB8` is only declared, in the `pix_fmts` list of the codec, for the caller to
enforce. -/
theorem C11_unsupported_format (avcodec_get_frame_defaults : AVFrame → AVFrame)
    (avctx : AVCodecContext) (uctx : UtahContext) :
    let out := utah_encode_init avcodec_get_frame_defaults avctx uctx
    (out.ret < 0 ↔ avctx.pix_fmt = AVPixelFormat.NONE)
    ∧ out.uctx = { picture := avcodec_get_frame_defaults uctx.picture }
    ∧ out.avctx.coded_frame = true
    ∧ (avctx.pix_fmt = AVPixelFormat.NONE →
        out.ret = -1 ∧ out.avctx = { avctx with coded_frame := true })
    ∧ (avctx.pix_fmt ≠ AVPixelFormat.NONE →
        out.ret = 0
        ∧ out.avctx = { avctx with coded_frame := true, bits_per_coded_sample := 8 })
    ∧ ff_utah_encoder_pix_fmts = [AVPixelFormat.RGB8] := by
  intro out
  show ((utah_encode_init avcodec_get_frame_defaults avctx uctx).ret < 0 ↔ _)
    ∧ (utah_encode_init avcodec_get_frame_defaults avctx uctx).uctx = _
    ∧ (utah_encode_init avcodec_get_frame_defaults avctx uctx).avctx.coded_frame = true
    ∧ (_ → (utah_encode_init avcodec_get_frame_defaults avctx uctx).ret = -1
        ∧ (utah_encode_init avcodec_get_frame_defaults avctx uctx).avctx = _)
    ∧ (_ → (utah_encode_init avcodec_get_frame_defaults avctx uctx).ret = 0
        ∧ (utah_encode_init avcodec_get_frame_defaults avctx uctx).avctx = _)
    ∧ _
  unfold utah_encode_init
  by_cases h : avctx.pix_fmt = AVPixelFormat.NONE
  · simp [h, ff_utah_encoder_pix_fmts]
  · simp [h, ff_utah_encoder_pix_fmts]

/-- C6 as amended.  For every input buffer `utah_decode_frame` accepts and every
palette index `i` in `[0, 256)` that is below `colors = 1 << bitsPerPixel`,
decoded palette entry `i` equals `0xFF000000 | (w & 0x00FFFFFF)`, where `w` is the
little-endian 32-bit word at buffer offset `8 + infoHeaderSize + 4 * i`: its top
byte is `0xFF` whatever the fourth byte of the slot is, and its low 24 bits are
those of `w`.  Entries of `[0, 256)` at or above `colors` are zero.  For
`bitsPerPixel = 8`, `colors = 256` and every index of `[0, 256)` is covered. -/
theorem C6_palette_alpha (env : DecEnv) (avctx : AVCodecContext) (uctx : UtahContext)
    (picture : AVFrame) (gf : Int) (avpkt : AVPacket)
    (hacc : 0 ≤ (utah_decode_frame env avctx uctx picture gf avpkt).ret) (i : Nat)
    (hi256 : i < 256) :
    let out := utah_decode_frame env avctx uctx picture gf avpkt
    let colors := shl_one (bytestream_get_le16 avpkt.data 20)
    let w := bytestream_get_le32 avpkt.data (8 + bytestream_get_le32 avpkt.data 8 + 4 * i)
    ((i : Int) < colors →
        out.picture.data1 i = 0xFF000000 ||| (w &&& 0x00FFFFFF)
        ∧ out.picture.data1 i / 2 ^ 24 = 0xFF
        ∧ out.picture.data1 i % 2 ^ 24 = w % 2 ^ 24)
    ∧ (colors ≤ (i : Int) → out.picture.data1 i = 0)
    ∧ (bytestream_get_le16 avpkt.data 20 = 8 → colors = 256 ∧ (i : Int) < colors) := by
  intro out colors w
  obtain ⟨_, avf, s, _, _, _, _, _, _, _, _, _, _, hd1, _, _⟩ :=
    decode_ok env avctx uctx picture gf avpkt hacc
  have hpal := dec_palette_loop_pal avpkt.data
    (shl_one (bytestream_get_le16 avpkt.data 20)).toNat 0
    { pos := 8 + bytestream_get_le32 avpkt.data 8, pal := memset_palette avf.data1,
      reads := header_reads } i
  rw [← hd1] at hpal
  simp only at hpal
  refine ⟨?_, ?_, ?_⟩
  · intro hi
    have hlt : 0 ≤ i ∧ i < 0 + (shl_one (bytestream_get_le16 avpkt.data 20)).toNat := by
      constructor
      · omega
      · show i < 0 + colors.toNat
        omega
    show (utah_decode_frame env avctx uctx picture gf avpkt).picture.data1 i = _ ∧ _
    rw [hpal, if_pos hlt]
    simp only [Nat.sub_zero]
    have := alpha_or w (get_le32_lt _ _)
    exact ⟨this.1, this.2.1, this.2.2⟩
  · intro hge
    have h256 := hi256
    have hlt : ¬ (0 ≤ i ∧ i < 0 + (shl_one (bytestream_get_le16 avpkt.data 20)).toNat) := by
      intro h
      have : i < 0 + colors.toNat := h.2
      omega
    show (utah_decode_frame env avctx uctx picture gf avpkt).picture.data1 i = _
    rw [hpal, if_neg hlt]
    simp only [memset_palette, if_pos h256]
  · intro h8
    show shl_one (bytestream_get_le16 avpkt.data 20) = 256
      ∧ (i : Int) < shl_one (bytestream_get_le16 avpkt.data 20)
    rw [h8]
    have e : shl_one 8 = 256 := by decide
    rw [e]
    exact ⟨rfl, by omega⟩

/-- Witness for the amended C6 on `ex_pkt500`: entry 3 is opaque black, built from
the zero word of its slot. -/
theorem C6_palette_alpha_witness :
    0 ≤ (utah_decode_frame ex_dec_env ex_dec_ctx ⟨ex_blank_frame⟩ ex_blank_frame 0 ex_pkt500).ret
    ∧ 3 < 256
    ∧ ((3 : Nat) : Int) < shl_one (bytestream_get_le16 ex_pkt500.data 20)
    ∧ (utah_decode_frame ex_dec_env ex_dec_ctx ⟨ex_blank_frame⟩ ex_blank_frame 0
        ex_pkt500).picture.data1 3 / 2 ^ 24 = 0xFF :=
  ⟨by decide, by decide, by decide,
    ((C6_palette_alpha ex_dec_env ex_dec_ctx ⟨ex_blank_frame⟩ ex_blank_frame 0 ex_pkt500
      (by decide) 3 (by decide)).1 (by decide)).2.1⟩

/-- C8, the code at the failing input.  `ex_pkt_truncated` is the 2x2 encoding cut
to 1054 bytes: its header gives `pixelDataOffset + height * rowStride =
1050 + 2 * 4 = 1058`, past the buffer size.  `utah_decode_frame` clamps the local
`file_size` from the declared 1058 to 1054 and then never looks at it: it does
not fail but returns the buffer size 1054, sets `*got_frame` to 1, and its last
read is the row copy of 4 bytes at offset 1054, wholly outside the buffer. -/
theorem C8_row_copy_past_buffer :
    ex_pkt_truncated.size = 1054
    ∧ bytestream_get_le32 ex_pkt_truncated.data 4
        + (toInt32 (bytestream_get_le32 ex_pkt_truncated.data 16)).toNat
          * dec_bytes_per_row (toInt32 (bytestream_get_le32 ex_pkt_truncated.data 12))
              (bytestream_get_le16 ex_pkt_truncated.data 20) = 1058
    ∧ bytestream_get_le32 ex_pkt_truncated.data 0 = 1058
    ∧ (utah_decode_frame ex_dec_env ex_dec_ctx ⟨ex_blank_frame⟩ ex_blank_frame 0
        ex_pkt_truncated).file_size = some 1054
    ∧ (utah_decode_frame ex_dec_env ex_dec_ctx ⟨ex_blank_frame⟩ ex_blank_frame 0
        ex_pkt_truncated).ret = 1054
    ∧ (utah_decode_frame ex_dec_env ex_dec_ctx ⟨ex_blank_frame⟩ ex_blank_frame 0
        ex_pkt_truncated).got_frame = 1
    ∧ (utah_decode_frame ex_dec_env ex_dec_ctx ⟨ex_blank_frame⟩ ex_blank_frame 0
        ex_pkt_truncated).reads.getLast? = some ⟨1054, 4⟩
    ∧ ¬ (∀ a ∈ (utah_decode_frame ex_dec_env ex_dec_ctx ⟨ex_blank_frame⟩ ex_blank_frame 0
        ex_pkt_truncated).reads, a.within 1054) := by
  decide

/-- C4, counterexample.  For a 65536 x 65536 image (`rowStride = 65536`),
`height * rowStride` is `2 ^ 32` and `headerSize + height * rowStride` is
`2 ^ 32 + 1050`: neither fits the `int` the encoder computes them in nor the 4
bytes of their header fields.  The field at offset 22 holds 0, not
`height * rowStride`, and the field at offset 0 holds 1050, not
`headerSize + height * rowStride`. -/
theorem C4_header_serialisation_counterexample :
    ex_ctx_huge.bits_per_coded_sample = 8 ∧ 1 ≤ ex_ctx_huge.width ∧ 1 ≤ ex_ctx_huge.height
    ∧ (utah_encode_frame ex_enc_env ex_ctx_huge ex_pkt ex_pict22 0).ret = 0
    ∧ computeRowStride ex_ctx_huge.width.toNat 8 = 65536
    ∧ ex_ctx_huge.height * (computeRowStride ex_ctx_huge.width.toNat 8 : Int) = 4294967296
    ∧ bytestream_get_le32 (utah_encode_frame ex_enc_env ex_ctx_huge ex_pkt ex_pict22 0).pkt.data 22
        = 0
    ∧ bytestream_get_le32 (utah_encode_frame ex_enc_env ex_ctx_huge ex_pkt ex_pict22 0).pkt.data 0
        = 1050
    ∧ (bytestream_get_le32 (utah_encode_frame ex_enc_env ex_ctx_huge ex_pkt ex_pict22 0).pkt.data 22
        : Int) ≠ ex_ctx_huge.height * (computeRowStride ex_ctx_huge.width.toNat 8 : Int)
    ∧ (bytestream_get_le32 (utah_encode_frame ex_enc_env ex_ctx_huge ex_pkt ex_pict22 0).pkt.data 0
        : Int) ≠ 1050 + ex_ctx_huge.height * (computeRowStride ex_ctx_huge.width.toNat 8 : Int) := by
  have hok : (utah_encode_frame ex_enc_env ex_ctx_huge ex_pkt ex_pict22 0).ret = 0 := rfl
  obtain ⟨f0, _, _, _, _, _, f22⟩ :=
    encode_header_fields ex_enc_env ex_ctx_huge ex_pkt ex_pict22 0 rfl hok
  have e22 : toUInt32 (ex_ctx_huge.height * (ex_ctx_huge.width + enc_pad ex_ctx_huge.width)) = 0 := by
    decide
  have e0 : toUInt32 (ex_ctx_huge.height * (ex_ctx_huge.width + enc_pad ex_ctx_huge.width) + 1050)
      = 1050 := by
    decide
  rw [e22] at f22
  rw [e0] at f0
  refine ⟨rfl, by decide, by decide, hok, by decide, by decide, f22, f0, ?_, ?_⟩
  · rw [f22]; decide
  · rw [f0]; decide

/-- C4 as amended.  For `width, height >= 1` whose total size
`1050 + height * rowStride` fits a signed 32-bit `int` (bit count 8, 256 palette
entries), a successful `utah_encode_frame` computes
`headerSize = 8 + 18 + 256 * 4 = 1050`, `imageSize = height * rowStride` and
`totalFileSize = headerSize + imageSize`, and the packet holds, little-endian,
`totalFileSize` at offset 0 (4 bytes), `headerSize` at 4 (4), the constant 18 at
8 (4), `width` at 12 (4), `height` at 16 (4), the bit count 8 at 20 (2) and
`imageSize` at 22 (4); the first palette slot is written at offset 26, directly
after these seven writes. -/
theorem C4_header_serialisation (env : EncEnv) (avctx : AVCodecContext) (pkt : AVPacket)
    (pict : AVFrame) (gp : Int) (hb : avctx.bits_per_coded_sample = 8)
    (hw : 1 ≤ avctx.width) (hh : 1 ≤ avctx.height)
    (hfit : 1050 + avctx.height * (computeRowStride avctx.width.toNat 8 : Int) < 2 ^ 31)
    (hok : (utah_encode_frame env avctx pkt pict gp).ret = 0) :
    let out := utah_encode_frame env avctx pkt pict gp
    let rowStride := computeRowStride avctx.width.toNat 8
    out.header_size = 8 + 18 + 256 * 4
    ∧ out.header_size = 1050
    ∧ out.image_size = avctx.height * rowStride
    ∧ out.total_bytes = out.header_size + out.image_size
    ∧ (bytestream_get_le32 out.pkt.data 0 : Int) = out.total_bytes
    ∧ (bytestream_get_le32 out.pkt.data 4 : Int) = out.header_size
    ∧ bytestream_get_le32 out.pkt.data 8 = 18
    ∧ (bytestream_get_le32 out.pkt.data 12 : Int) = avctx.width
    ∧ (bytestream_get_le32 out.pkt.data 16 : Int) = avctx.height
    ∧ bytestream_get_le16 out.pkt.data 20 = 8
    ∧ (bytestream_get_le32 out.pkt.data 22 : Int) = out.image_size
    ∧ out.writes.take 8
        = [⟨0, 4⟩, ⟨4, 4⟩, ⟨8, 4⟩, ⟨12, 4⟩, ⟨16, 4⟩, ⟨20, 2⟩, ⟨22, 4⟩, ⟨26, 4⟩]
    ∧ (∀ c, c < 4 → out.pkt.data (26 + c)
        = byte ((env.avpriv_set_systematic_pal2 avctx.pix_fmt 0 &&& 0xFFFFFF) / 256 ^ c)) := by
  intro out rowStride
  have hhs : (utah_encode_frame env avctx pkt pict gp).header_size = 1050 :=
    encode_header_size env avctx pkt pict gp hb
  obtain ⟨_, _, himg, htot⟩ := encode_locals env avctx pkt pict gp
  have hst := (enc_pad_eq_stride avctx.width (by omega)).2
  rw [hst] at himg
  obtain ⟨f0, f4, f8, f12, f16, f20, f22⟩ := encode_header_fields env avctx pkt pict gp hb hok
  rw [hst] at f0 f22
  have hR1 : (1 : Int) ≤ (computeRowStride avctx.width.toNat 8 : Int) := by
    have := (enc_pad_eq_stride avctx.width (by omega)).1
    omega
  have hwR : avctx.width ≤ (computeRowStride avctx.width.toNat 8 : Int) := by
    have := (enc_pad_eq_stride avctx.width (by omega)).1
    omega
  have hi0 : 0 ≤ avctx.height * (computeRowStride avctx.width.toNat 8 : Int) :=
    Int.mul_nonneg (by omega) (by omega)
  have hhle : avctx.height * 1 ≤ avctx.height * (computeRowStride avctx.width.toNat 8 : Int) :=
    Int.mul_le_mul_of_nonneg_left hR1 (by omega)
  have hRle : 1 * (computeRowStride avctx.width.toNat 8 : Int)
      ≤ avctx.height * (computeRowStride avctx.width.toNat 8 : Int) :=
    Int.mul_le_mul_of_nonneg_right hh (by omega)
  refine ⟨by rw [hhs]; norm_num, hhs, himg, by rw [htot]; ring, ?_, ?_, f8, ?_, ?_, f20, ?_, ?_, ?_⟩
  · show (bytestream_get_le32 (utah_encode_frame env avctx pkt pict gp).pkt.data 0 : Int)
      = (utah_encode_frame env avctx pkt pict gp).total_bytes
    rw [f0, htot, himg, hhs, toUInt32_of_nonneg _ (by omega) (by omega)]
    omega
  · show (bytestream_get_le32 (utah_encode_frame env avctx pkt pict gp).pkt.data 4 : Int)
      = (utah_encode_frame env avctx pkt pict gp).header_size
    rw [f4, hhs]; rfl
  · show (bytestream_get_le32 (utah_encode_frame env avctx pkt pict gp).pkt.data 12 : Int) = _
    rw [f12, toUInt32_of_nonneg _ (by omega) (by omega)]
    omega
  · show (bytestream_get_le32 (utah_encode_frame env avctx pkt pict gp).pkt.data 16 : Int) = _
    rw [f16, toUInt32_of_nonneg _ (by omega) (by omega)]
    omega
  · show (bytestream_get_le32 (utah_encode_frame env avctx pkt pict gp).pkt.data 22 : Int)
      = (utah_encode_frame env avctx pkt pict gp).image_size
    rw [f22, himg, toUInt32_of_nonneg _ hi0 (by omega)]
    omega
  · show (utah_encode_frame env avctx pkt pict gp).writes.take 8 = _
    rw [encode_ok_writes env avctx pkt pict gp hb hok]
    rfl
  · intro c hc
    have := encode_palette_bytes env avctx pkt pict gp hb hok 0 c (by omega) hc
    simpa using this

/-- Witness for the amended C4: a 2x2 image gives `headerSize = 1050`,
`rowStride = 4` and `totalFileSize = 1058`, stored little-endian at offset 0. -/
theorem C4_header_serialisation_witness :
    ex_ctx22.bits_per_coded_sample = 8 ∧ 1 ≤ ex_ctx22.width ∧ 1 ≤ ex_ctx22.height
    ∧ 1050 + ex_ctx22.height * (computeRowStride ex_ctx22.width.toNat 8 : Int) < 2 ^ 31
    ∧ (utah_encode_frame ex_enc_env ex_ctx22 ex_pkt ex_pict22 0).ret = 0
    ∧ computeRowStride 2 8 = 4
    ∧ (utah_encode_frame ex_enc_env ex_ctx22 ex_pkt ex_pict22 0).total_bytes = 1058
    ∧ (List.range 26).map
        (fun k => (utah_encode_frame ex_enc_env ex_ctx22 ex_pkt ex_pict22 0).pkt.data k)
        = [34, 4, 0, 0, 26, 4, 0, 0, 18, 0, 0, 0, 2, 0, 0, 0, 2, 0, 0, 0, 8, 0, 8, 0, 0, 0]
    ∧ (utah_encode_frame ex_enc_env ex_ctx22 ex_pkt ex_pict22 0).header_size = 1050
    ∧ (bytestream_get_le32 (utah_encode_frame ex_enc_env ex_ctx22 ex_pkt ex_pict22 0).pkt.data 0
        : Int) = (utah_encode_frame ex_enc_env ex_ctx22 ex_pkt ex_pict22 0).total_bytes :=
  ⟨rfl, by decide, by decide, by decide, rfl, rfl, by decide, by decide,
    (C4_header_serialisation ex_enc_env ex_ctx22 ex_pkt ex_pict22 0 rfl (by decide) (by decide)
      (by decide) rfl).2.1,
    (C4_header_serialisation ex_enc_env ex_ctx22 ex_pkt ex_pict22 0 rfl (by decide) (by decide)
      (by decide) rfl).2.2.2.2.1⟩

/-- C19 as amended.  Take two input buffers of the same size that differ only in
bytes 0 to 3 (the `totalFileSize` field), whose `pixelDataOffset` is at least 4,
and which `utah_decode_frame` reads without leaving the buffer (every read of
the call ends at or below the buffer size).  Then the call produces the same
result for both: the same return value, context (width, height, pixel
format), palette and raster, `*got_frame` and reads.  Only the local
`file_size` can differ, and nothing is computed from it. -/
theorem C19_size_field_independence (env : DecEnv) (avctx : AVCodecContext)
    (uctx : UtahContext) (picture : AVFrame) (gf : Int) (p1 p2 : AVPacket)
    (hsz : p1.size = p2.size)
    (hsame : ∀ k : Nat, 4 ≤ k → (k : Int) < p1.size → p1.data k = p2.data k)
    (hoff : 4 ≤ bytestream_get_le32 p1.data 4)
    (hin : ∀ r ∈ (utah_decode_frame env avctx uctx picture gf p1).reads,
      ((r.off + r.len : Nat) : Int) ≤ p1.size) :
    let d1 := utah_decode_frame env avctx uctx picture gf p1
    let d2 := utah_decode_frame env avctx uctx picture gf p2
    d1.ret = d2.ret
    ∧ d1.avctx = d2.avctx
    ∧ d1.uctx = d2.uctx
    ∧ d1.picture = d2.picture
    ∧ d1.got_frame = d2.got_frame
    ∧ d1.reads = d2.reads := by
  intro d1 d2
  exact decode_congr_reads env avctx uctx picture gf p1 p2 hsz
    (fun r hr k _ hk2 hk4 => hsame k hk4 (by
      have := hin r hr
      omega))
    hoff

/-- Witness for the amended C19: `ex_pkt500` (size field 10000) and `ex_pkt500_b`
(size field 500) have `pixelDataOffset = 90`, are read within their 500 bytes,
and decode alike. -/
theorem C19_size_field_independence_witness :
    ex_pkt500.size = ex_pkt500_b.size
    ∧ (∀ k : Nat, 4 ≤ k → (k : Int) < ex_pkt500.size → ex_pkt500.data k = ex_pkt500_b.data k)
    ∧ 4 ≤ bytestream_get_le32 ex_pkt500.data 4
    ∧ (∀ r ∈ (utah_decode_frame ex_dec_env ex_dec_ctx ⟨ex_blank_frame⟩ ex_blank_frame 0
        ex_pkt500).reads, ((r.off + r.len : Nat) : Int) ≤ ex_pkt500.size)
    ∧ bytestream_get_le32 ex_pkt500.data 0 ≠ bytestream_get_le32 ex_pkt500_b.data 0
    ∧ (utah_decode_frame ex_dec_env ex_dec_ctx ⟨ex_blank_frame⟩ ex_blank_frame 0 ex_pkt500).picture
        = (utah_decode_frame ex_dec_env ex_dec_ctx ⟨ex_blank_frame⟩ ex_blank_frame 0
            ex_pkt500_b).picture :=
  ⟨rfl, fun k hk _ => by
      obtain ⟨n, rfl⟩ : ∃ n, k = n + 4 := ⟨k - 4, by omega⟩
      rfl,
    by decide, by decide, by decide,
    (C19_size_field_independence ex_dec_env ex_dec_ctx ⟨ex_blank_frame⟩ ex_blank_frame 0
      ex_pkt500 ex_pkt500_b rfl
      (fun k hk _ => by
        obtain ⟨n, rfl⟩ : ∃ n, k = n + 4 := ⟨k - 4, by omega⟩
        rfl)
      (by decide) (by decide)).2.2.2.1⟩

end Utah
